import Mathlib

/-!
Verification development for the ads-marketplace backend.

The definitions below are a shallow embedding of the Go sources:
deal statuses and the transition table (`internal/models/deal.go`),
the deal orchestrator (`internal/services/channel_service.go`),
the escrow repository (`internal/repositories/escrow_repo.go`),
the chain indexer (`cmd/ton-indexer/main.go`),
the lifecycle workers (worker main), the TON proof verifier
(`internal/ton/proof.go`) and the wallet service/repository.

Database tables are modelled as lists of rows inside a `Store`
structure; each repository method becomes a pure function on the
store, guarded exactly as the SQL statement it embeds is guarded.
Timestamps are integers supplied by the caller; `updated_at` and
`created_at` columns are omitted because no claim depends on them.
Opaque UUID identifiers are modelled as natural numbers.
-/

namespace AdsMarket

instance {ε α : Type} [DecidableEq ε] [DecidableEq α] : DecidableEq (Except ε α) := fun a b =>
  match a, b with
  | .ok x, .ok y => if h : x = y then .isTrue (by rw [h]) else .isFalse (by simp [h])
  | .error x, .error y => if h : x = y then .isTrue (by rw [h]) else .isFalse (by simp [h])
  | .ok _, .error _ => .isFalse (by simp)
  | .error _, .ok _ => .isFalse (by simp)

/-! ### Deal statuses — internal/models/deal.go -/

def DealStatusDraft : String := "draft"
def DealStatusSubmitted : String := "submitted"
def DealStatusRejected : String := "rejected"
def DealStatusAccepted : String := "accepted"
def DealStatusAwaitingPayment : String := "awaiting_payment"
def DealStatusFunded : String := "funded"
def DealStatusCreativePending : String := "creative_pending"
def DealStatusCreativeSubmitted : String := "creative_submitted"
def DealStatusCreativeChangesRequested : String := "creative_changes_requested"
def DealStatusCreativeApproved : String := "creative_approved"
def DealStatusScheduled : String := "scheduled"
def DealStatusPosted : String := "posted"
def DealStatusHoldVerification : String := "hold_verification"
def DealStatusHoldVerificationFailed : String := "hold_verification_failed"
def DealStatusCompleted : String := "completed"
def DealStatusRefunded : String := "refunded"
def DealStatusCancelled : String := "cancelled"

/-- All seventeen deal statuses used by the code. -/
def allDealStatuses : List String :=
  [DealStatusDraft, DealStatusSubmitted, DealStatusRejected, DealStatusAccepted,
   DealStatusAwaitingPayment, DealStatusFunded,
   DealStatusCreativePending, DealStatusCreativeSubmitted,
   DealStatusCreativeChangesRequested, DealStatusCreativeApproved,
   DealStatusScheduled, DealStatusPosted,
   DealStatusHoldVerification, DealStatusHoldVerificationFailed,
   DealStatusCompleted, DealStatusRefunded, DealStatusCancelled]

/-- The Go map `ValidDealTransitions` (deal.go), as an association list. -/
def ValidDealTransitions : List (String × List String) :=
  [(DealStatusDraft,                    [DealStatusSubmitted, DealStatusCancelled]),
   (DealStatusSubmitted,                [DealStatusAccepted, DealStatusRejected, DealStatusCancelled]),
   (DealStatusRejected,                 []),
   (DealStatusAccepted,                 [DealStatusAwaitingPayment, DealStatusCancelled]),
   (DealStatusAwaitingPayment,          [DealStatusFunded, DealStatusCancelled]),
   (DealStatusFunded,                   [DealStatusCreativePending, DealStatusCancelled]),
   (DealStatusCreativePending,          [DealStatusCreativeSubmitted, DealStatusCancelled]),
   (DealStatusCreativeSubmitted,        [DealStatusCreativeApproved, DealStatusCreativeChangesRequested]),
   (DealStatusCreativeChangesRequested, [DealStatusCreativeSubmitted, DealStatusCancelled]),
   (DealStatusCreativeApproved,         [DealStatusScheduled, DealStatusPosted]),
   (DealStatusScheduled,                [DealStatusPosted, DealStatusCancelled]),
   (DealStatusPosted,                   [DealStatusHoldVerification]),
   (DealStatusHoldVerification,         [DealStatusCompleted, DealStatusHoldVerificationFailed]),
   (DealStatusHoldVerificationFailed,   [DealStatusRefunded]),
   (DealStatusCompleted,                []),
   (DealStatusRefunded,                 []),
   (DealStatusCancelled,                [DealStatusRefunded])]

/-- Embeds `IsValidTransition` from deal.go: looks the source status up in
the map and scans the allowed successor list. -/
def IsValidTransition (fromStatus toStatus : String) : Bool :=
  match ValidDealTransitions.lookup fromStatus with
  | some allowed => allowed.contains toStatus
  | none => false

/-- The transition table as written in spec section 4.2.2, one pair per
allowed transition.  This definition follows the SPEC's table, to be
compared against `IsValidTransition` from the code. -/
def specTransitionTable : List (String × String) :=
  [("draft", "submitted"), ("draft", "cancelled"),
   ("submitted", "accepted"), ("submitted", "rejected"), ("submitted", "cancelled"),
   ("accepted", "awaiting_payment"), ("accepted", "cancelled"),
   ("awaiting_payment", "funded"), ("awaiting_payment", "cancelled"),
   ("funded", "creative_pending"), ("funded", "cancelled"),
   ("creative_pending", "creative_submitted"), ("creative_pending", "cancelled"),
   ("creative_submitted", "creative_approved"), ("creative_submitted", "creative_changes_requested"),
   ("creative_changes_requested", "creative_submitted"), ("creative_changes_requested", "cancelled"),
   ("creative_approved", "scheduled"), ("creative_approved", "posted"),
   ("scheduled", "posted"), ("scheduled", "cancelled"),
   ("posted", "hold_verification"),
   ("hold_verification", "completed"), ("hold_verification", "hold_verification_failed"),
   ("hold_verification_failed", "refunded"),
   ("cancelled", "refunded")]

/-! ### Ad formats and listings — models (channel.go) -/

def AdFormatPost : String := "post"
def AdFormatRepost : String := "repost"
def AdFormatStory : String := "story"

def AllAdFormats : List String := [AdFormatPost, AdFormatRepost, AdFormatStory]

/-- Embeds `IsValidAdFormat` from the models package. -/
def IsValidAdFormat (f : String) : Bool := AllAdFormats.contains f

/-- Row of `channel_listings` (fields the claims need). -/
structure ChannelListing where
  channelId : Nat
  status : String
  pricePostTON : Option String
  priceRepostTON : Option String
  priceStoryTON : Option String
  formatsEnabled : List String
  holdHoursPost : Int
  holdHoursRepost : Int
  holdHoursStory : Int
  deriving Repr, DecidableEq

/-- Embeds `ChannelListing.GetPriceForFormat`. -/
def ChannelListing.GetPriceForFormat (l : ChannelListing) (format : String) : Option String :=
  if format = AdFormatPost then l.pricePostTON
  else if format = AdFormatRepost then l.priceRepostTON
  else if format = AdFormatStory then l.priceStoryTON
  else none

/-- Embeds `ChannelListing.GetHoldHoursForFormat`. -/
def ChannelListing.GetHoldHoursForFormat (l : ChannelListing) (format : String) : Int :=
  if format = AdFormatPost then l.holdHoursPost
  else if format = AdFormatRepost then l.holdHoursRepost
  else if format = AdFormatStory then l.holdHoursStory
  else l.holdHoursPost

/-- Embeds `ChannelListing.IsFormatEnabled`. -/
def ChannelListing.IsFormatEnabled (l : ChannelListing) (format : String) : Bool :=
  l.formatsEnabled.contains format

/-! ### Rows of the remaining tables -/

/-- Row of `deals` (timestamp columns omitted; no claim uses them). -/
structure Deal where
  id : Nat
  channelId : Nat
  advertiserUserId : Nat
  status : String
  adFormat : String
  priceTON : String
  platformFeeBPS : Int
  holdPeriodSeconds : Int
  deriving Repr, DecidableEq

/-- Row of `escrow_ledger`. -/
structure EscrowLedger where
  dealId : Nat
  depositExpectedTON : String
  depositAddress : String
  depositMemo : String
  status : String
  fundingTxHash : Option String
  payerAddress : Option String
  releaseAmountTON : Option String
  releaseTxHash : Option String
  refundTxHash : Option String
  deriving Repr, DecidableEq

def EscrowStatusAwaiting : String := "awaiting"
def EscrowStatusFunded : String := "funded"
def EscrowStatusReleased : String := "released"
def EscrowStatusRefunded : String := "refunded"

/-- Row of `deal_posts`. -/
structure DealPost where
  dealId : Nat
  telegramMessageId : Option Int
  telegramChatId : Option Int
  postURL : Option String
  contentHash : Option String
  postedAt : Option Int
  isDeleted : Bool
  isEdited : Bool
  deriving Repr, DecidableEq

/-- Row of `channels` (fields the claims need). -/
structure Channel where
  id : Nat
  username : String
  deriving Repr, DecidableEq

/-- Row of `channel_members`. -/
structure ChannelMember where
  channelId : Nat
  userId : Nat
  role : String
  canPost : Bool
  deriving Repr, DecidableEq

/-- Entry of `audit_log` (structured meta omitted). -/
structure AuditLog where
  actorUserId : Option Nat
  actorType : String
  action : String
  entityType : String
  entityId : Option Nat
  deriving Repr, DecidableEq

/-- An event published on the bus; only the type tag and the deal id of
the payload are modelled, which is all the claims use. -/
structure Event where
  type : String
  dealId : Option Nat
  deriving Repr, DecidableEq

def EventDealStatusChanged : String := "deal_status_changed"
def EventPaymentReceived : String := "payment_received"

/-- The database plus Redis state shared by the components.  `redisKeys`
models the indexer's key-value idempotency store. -/
structure Store where
  nextId : Nat
  deals : List Deal
  escrows : List EscrowLedger
  posts : List DealPost
  channels : List Channel
  members : List ChannelMember
  listings : List ChannelListing
  audit : List AuditLog
  events : List Event
  redisKeys : List (String × String)
  deriving Repr, DecidableEq

/-- Configuration values the modelled operations read. -/
structure Config where
  holdPeriodSeconds : Int
  platformFeeBPS : Int
  tonHotWalletAddress : String
  tonNetwork : String
  tonProofAllowedDomains : List String
  deriving Repr, DecidableEq

/-! ### Repository operations (internal/repositories, internal/db) -/

/-- Embeds `DealRepo.GetByID`: the unique `deals` row with the given id. -/
def DealRepo.getByID (st : Store) (id : Nat) : Option Deal :=
  st.deals.find? (fun d => d.id == id)

/-- Embeds `DealRepo.UpdateStatus`: `UPDATE deals SET status = $1 WHERE id = $2`
with no guard on the previous status. -/
def DealRepo.updateStatus (st : Store) (id : Nat) (status : String) : Store :=
  { st with deals := st.deals.map (fun d => if d.id == id then { d with status := status } else d) }

/-- Embeds `DealRepo.GetPost`: the `deal_posts` row for the deal. -/
def DealRepo.getPost (st : Store) (dealId : Nat) : Option DealPost :=
  st.posts.find? (fun p => p.dealId == dealId)

/-- Embeds `DealRepo.UpsertPost`: insert, or coalescing update of the
existing row — non-null incoming fields replace, nulls preserve. -/
def DealRepo.upsertPost (st : Store) (p : DealPost) : Store :=
  match st.posts.find? (fun q => q.dealId == p.dealId) with
  | none => { st with posts := st.posts ++ [p] }
  | some _ =>
    { st with posts := st.posts.map (fun q =>
        if q.dealId == p.dealId then
          { q with
            telegramMessageId := p.telegramMessageId.orElse (fun _ => q.telegramMessageId)
            telegramChatId := p.telegramChatId.orElse (fun _ => q.telegramChatId)
            postURL := p.postURL.orElse (fun _ => q.postURL)
            contentHash := p.contentHash.orElse (fun _ => q.contentHash)
            postedAt := p.postedAt.orElse (fun _ => q.postedAt) }
        else q) }

/-- Embeds `DealRepo.UpdatePostFlags`: sets `is_deleted` and `is_edited`
for the deal's post row. -/
def DealRepo.updatePostFlags (st : Store) (dealId : Nat) (isDeleted isEdited : Bool) : Store :=
  { st with posts := st.posts.map (fun q =>
      if q.dealId == dealId then { q with isDeleted := isDeleted, isEdited := isEdited } else q) }

/-- Embeds `EscrowRepo.Create`: insert-only; the UNIQUE indexes on
`deal_id` and `deposit_memo` turn a duplicate into a conflict error. -/
def EscrowRepo.create (st : Store) (e : EscrowLedger) : Store × Option String :=
  if st.escrows.any (fun x => x.dealId == e.dealId || x.depositMemo == e.depositMemo) then
    (st, some "conflict: duplicate escrow")
  else
    ({ st with escrows := st.escrows ++ [e] }, none)

/-- Embeds `EscrowRepo.GetByMemo`: the escrow row matching the memo. -/
def EscrowRepo.getByMemo (st : Store) (memo : String) : Option EscrowLedger :=
  st.escrows.find? (fun e => e.depositMemo == memo)

/-- Embeds `EscrowRepo.MarkFunded`: `UPDATE escrow_ledger SET status='funded', ...
WHERE deal_id = $3 AND status = 'awaiting'` — rows in any other status
are untouched and the call still succeeds (zero rows affected). -/
def EscrowRepo.markFunded (st : Store) (dealId : Nat) (txHash payerAddr : String) : Store :=
  { st with escrows := st.escrows.map (fun e =>
      if e.dealId == dealId && e.status == EscrowStatusAwaiting then
        { e with status := EscrowStatusFunded, fundingTxHash := some txHash, payerAddress := some payerAddr }
      else e) }

/-- Embeds `EscrowRepo.MarkReleased`: guarded by `status = 'funded'`. -/
def EscrowRepo.markReleased (st : Store) (dealId : Nat) (amount txHash : String) : Store :=
  { st with escrows := st.escrows.map (fun e =>
      if e.dealId == dealId && e.status == EscrowStatusFunded then
        { e with status := EscrowStatusReleased, releaseAmountTON := some amount, releaseTxHash := some txHash }
      else e) }

/-- Embeds `EscrowRepo.MarkRefunded`: `UPDATE escrow_ledger SET status='refunded', ...
WHERE deal_id = $2` — the source SQL carries NO status guard. -/
def EscrowRepo.markRefunded (st : Store) (dealId : Nat) (txHash : String) : Store :=
  { st with escrows := st.escrows.map (fun e =>
      if e.dealId == dealId then
        { e with status := EscrowStatusRefunded, refundTxHash := some txHash }
      else e) }

/-- Embeds `ChannelRepo.GetListing`: the listing row of the channel,
selected with no condition on its status. -/
def ChannelRepo.getListing (st : Store) (channelId : Nat) : Option ChannelListing :=
  st.listings.find? (fun l => l.channelId == channelId)

/-- Embeds `ChannelRepo.GetMemberByUserAndChannel`. -/
def ChannelRepo.getMemberByUserAndChannel (st : Store) (channelId userId : Nat) : Option ChannelMember :=
  st.members.find? (fun m => m.channelId == channelId && m.userId == userId)

/-- Embeds `AuditRepo.Log` (append-only). -/
def AuditRepo.log (st : Store) (entry : AuditLog) : Store :=
  { st with audit := st.audit ++ [entry] }

/-- Embeds `Publisher.Publish` on the `events:deal` channel. -/
def Publisher.publish (st : Store) (ev : Event) : Store :=
  { st with events := st.events ++ [ev] }

/-- Embeds `ChannelRepo.GetByID` (fields the claims need). -/
def ChannelRepo.getChannelByID (st : Store) (id : Nat) : Option Channel :=
  st.channels.find? (fun c => c.id == id)

/-! ### parseTONToNano — cmd/ton-indexer/main.go

String manipulation is carried out on `List Char`, the underlying data
of `String`, with structurally recursive helpers (the built-in string
functions do not reduce inside the kernel). -/

/-- Model of Go `strings.TrimSpace`: drop whitespace from both ends. -/
def goTrim (cs : List Char) : List Char :=
  ((cs.dropWhile Char.isWhitespace).reverse.dropWhile Char.isWhitespace).reverse

/-- Model of Go `strings.Split(s, ".")`. -/
def splitDot : List Char → List (List Char)
  | [] => [[]]
  | c :: rest =>
    if c = '.' then [] :: splitDot rest
    else
      match splitDot rest with
      | [] => [[c]]
      | h :: t => (c :: h) :: t

/-- Value of a non-empty all-decimal-digit character run. -/
def decDigitsVal? (cs : List Char) : Option Nat :=
  if cs.isEmpty then none
  else if cs.all Char.isDigit then
    some (cs.foldl (fun acc c => acc * 10 + (c.toNat - 48)) 0)
  else none

/-- Model of Go `big.Int.SetString(s, 10)`: an optional leading sign
followed by a non-empty run of decimal digits. -/
def bigIntSetString10 : List Char → Option Int
  | [] => none
  | c :: rest =>
    if c = '-' then (decDigitsVal? rest).map (fun n => -(n : Int))
    else if c = '+' then (decDigitsVal? rest).map (fun n => (n : Int))
    else (decDigitsVal? (c :: rest)).map (fun n => (n : Int))

/-- Embeds `parseTONToNano` from the indexer: trim, split on dots (more
than one is an error), truncate the fraction to nine digits, right-pad
it to nine digits, and parse the concatenation of whole and fractional
part as a base-10 big integer of nano units. -/
def parseTONToNano (tonStr : String) : Except String Int :=
  let t := goTrim tonStr.data
  if t.isEmpty then .error "empty TON amount"
  else
    let parts := splitDot t
    if parts.length > 2 then .error ("invalid TON amount: " ++ String.mk t)
    else
      let whole := parts.headD []
      let frac0 := parts.getD 1 []
      let frac1 := if frac0.length > 9 then frac0.take 9 else frac0
      let frac := frac1 ++ List.replicate (9 - frac1.length) '0'
      match bigIntSetString10 (whole ++ frac) with
      | some n => .ok n
      | none => .error ("invalid TON amount: " ++ String.mk t)

/-! ### Deal orchestrator — internal/services/channel_service.go

Storage calls can fail transiently in Go; a failing call is modelled by
an explicit fault parameter (`updateFails`, or a per-operation fault
selector), and the fault-free run uses `noFault` / `false`. -/

/-- An injective stand-in for hex-encoded SHA-256 of a string
(`fmt.Sprintf("%x", sha256.Sum256([]byte(s)))`); no claim depends on
concrete digest values, only on equality and inequality of hashes. -/
def sha256Hex (s : String) : String := "sha256:" ++ s

/-- Embeds `DealService.transition`: validate against the table, update
the deal row, append the audit entry, publish `deal_status_changed`. -/
def DealService.transition (st : Store) (deal : Deal) (newStatus : String)
    (actorId : Option Nat) (actorType : String) (updateFails : Bool) :
    Store × Except String Deal :=
  if !(IsValidTransition deal.status newStatus) then
    (st, .error ("invalid transition from " ++ deal.status ++ " to " ++ newStatus))
  else if updateFails then
    (st, .error "storage error")
  else
    let oldStatus := deal.status
    let st1 := DealRepo.updateStatus st deal.id newStatus
    let deal1 := { deal with status := newStatus }
    let st2 := AuditRepo.log st1
      { actorUserId := actorId, actorType := actorType,
        action := "deal_status_" ++ oldStatus ++ "_to_" ++ newStatus,
        entityType := "deal", entityId := some deal1.id }
    let st3 := Publisher.publish st2 { type := EventDealStatusChanged, dealId := some deal1.id }
    (st3, .ok deal1)

/-- Embeds `DealService.checkChannelRole`. -/
def DealService.checkChannelRole (st : Store) (channelId userId : Nat) (ownerOnly : Bool) :
    Option String :=
  match ChannelRepo.getMemberByUserAndChannel st channelId userId with
  | none => some "user is not a member of this channel"
  | some member =>
    if ownerOnly && member.role != "owner" then some "only owner can perform this action"
    else none

/-- Embeds `DealService.CreateDeal` (brief and scheduled_at omitted; no
claim depends on them). -/
def DealService.CreateDeal (st : Store) (cfg : Config) (advertiserId channelId : Nat)
    (adFormat : String) (priceTON : String) : Store × Except String Deal :=
  if !(IsValidAdFormat adFormat) then
    (st, .error ("invalid ad format " ++ adFormat))
  else
    match ChannelRepo.getListing st channelId with
    | none => (st, .error "channel listing not found")
    | some listing =>
      if !(listing.IsFormatEnabled adFormat) then
        (st, .error ("ad format " ++ adFormat ++ " is not enabled for this channel"))
      else
        let priceRes : Except String String :=
          if priceTON = "" || priceTON = "0" then
            match listing.GetPriceForFormat adFormat with
            | none => .error ("no price set for format " ++ adFormat ++ " in channel listing")
            | some p =>
              if p = "" then .error ("no price set for format " ++ adFormat ++ " in channel listing")
              else .ok p
          else .ok priceTON
        match priceRes with
        | .error e => (st, .error e)
        | .ok price =>
          let holdSeconds0 := listing.GetHoldHoursForFormat adFormat * 3600
          let holdSeconds := if holdSeconds0 ≤ 0 then cfg.holdPeriodSeconds else holdSeconds0
          let deal : Deal :=
            { id := st.nextId, channelId := channelId, advertiserUserId := advertiserId,
              status := DealStatusDraft, adFormat := adFormat, priceTON := price,
              platformFeeBPS := cfg.platformFeeBPS, holdPeriodSeconds := holdSeconds }
          let st1 := { st with nextId := st.nextId + 1, deals := st.deals ++ [deal] }
          let st2 := AuditRepo.log st1
            { actorUserId := some advertiserId, actorType := "user", action := "deal_created",
              entityType := "deal", entityId := some deal.id }
          (st2, .ok deal)

/-- Embeds `DealService.SubmitDeal`. -/
def DealService.SubmitDeal (st : Store) (dealId actorId : Nat) : Store × Option String :=
  match DealRepo.getByID st dealId with
  | none => (st, some "deal not found")
  | some deal =>
    if deal.advertiserUserId != actorId then (st, some "only advertiser can submit deal")
    else
      match DealService.transition st deal DealStatusSubmitted (some actorId) "user" false with
      | (st1, .error e) => (st1, some e)
      | (st1, .ok _) => (st1, none)

/-- Fault selector for `AcceptDeal`'s storage calls. -/
inductive AcceptFault
  | noFault
  | secondUpdateFails
  | escrowCreateFails
  deriving Repr, DecidableEq

/-- Embeds `DealService.AcceptDeal`: two sequenced transitions
(`submitted → accepted → awaiting_payment`) followed by the escrow
insertion with memo `deal:<id>`, with no surrounding transaction. -/
def DealService.AcceptDeal (st : Store) (cfg : Config) (dealId actorId : Nat)
    (fault : AcceptFault) : Store × Option String :=
  match DealRepo.getByID st dealId with
  | none => (st, some "deal not found")
  | some deal =>
    match DealService.checkChannelRole st deal.channelId actorId false with
    | some err => (st, some err)
    | none =>
      match DealService.transition st deal DealStatusAccepted (some actorId) "user" false with
      | (st1, .error e) => (st1, some e)
      | (st1, .ok deal1) =>
        match DealService.transition st1 deal1 DealStatusAwaitingPayment (some actorId) "system"
            (fault == AcceptFault.secondUpdateFails) with
        | (st2, .error e) => (st2, some e)
        | (st2, .ok deal2) =>
          let memo := "deal:" ++ toString deal2.id
          let escrow : EscrowLedger :=
            { dealId := deal2.id, depositExpectedTON := deal2.priceTON,
              depositAddress := cfg.tonHotWalletAddress, depositMemo := memo,
              status := EscrowStatusAwaiting, fundingTxHash := none, payerAddress := none,
              releaseAmountTON := none, releaseTxHash := none, refundTxHash := none }
          if fault == AcceptFault.escrowCreateFails then (st2, some "storage error")
          else
            match EscrowRepo.create st2 escrow with
            | (st3, err) => (st3, err)

/-- Embeds `DealService.CancelDeal`. -/
def DealService.CancelDeal (st : Store) (dealId actorId : Nat) : Store × Option String :=
  match DealRepo.getByID st dealId with
  | none => (st, some "deal not found")
  | some deal =>
    let roleOk : Option String :=
      if deal.advertiserUserId == actorId then none
      else
        match DealService.checkChannelRole st deal.channelId actorId false with
        | some _ => some "only advertiser or channel owner/manager can cancel"
        | none => none
    match roleOk with
    | some err => (st, some err)
    | none =>
      match DealService.transition st deal DealStatusCancelled (some actorId) "user" false with
      | (st1, .error e) => (st1, some e)
      | (st1, .ok _) => (st1, none)

/-- Fault selector for `MarkManualPost`'s storage calls. -/
inductive MarkPostFault
  | noFault
  | upsertFails
  | firstUpdateFails
  | secondUpdateFails
  deriving Repr, DecidableEq

/-- Embeds `DealService.MarkManualPost`: post upsert with
`content_hash = SHA256(post_url)` followed by two sequential
transitions `posted → hold_verification`. -/
def DealService.MarkManualPost (st : Store) (dealId actorId : Nat) (postURL : String)
    (now : Int) (fault : MarkPostFault) : Store × Option String :=
  match DealRepo.getByID st dealId with
  | none => (st, some "deal not found")
  | some deal =>
    match DealService.checkChannelRole st deal.channelId actorId false with
    | some err => (st, some err)
    | none =>
      if deal.status != DealStatusCreativeApproved && deal.status != DealStatusScheduled then
        (st, some "deal must be creative_approved or scheduled to mark post")
      else
        let hash := sha256Hex postURL
        let post : DealPost :=
          { dealId := dealId, telegramMessageId := none, telegramChatId := none,
            postURL := some postURL, contentHash := some hash, postedAt := some now,
            isDeleted := false, isEdited := false }
        if fault == MarkPostFault.upsertFails then (st, some "storage error")
        else
          let st1 := DealRepo.upsertPost st post
          match DealService.transition st1 deal DealStatusPosted (some actorId) "user"
              (fault == MarkPostFault.firstUpdateFails) with
          | (st2, .error e) => (st2, some e)
          | (st2, .ok deal1) =>
            match DealService.transition st2 deal1 DealStatusHoldVerification (some actorId) "system"
                (fault == MarkPostFault.secondUpdateFails) with
            | (st3, .error e) => (st3, some e)
            | (st3, .ok _) => (st3, none)

/-- Embeds `DealService.RefundDeal`: a single transition of the deal to
`refunded` (with system actor); no intermediate status is visited. -/
def DealService.RefundDeal (st : Store) (dealId : Nat) : Store × Option String :=
  match DealRepo.getByID st dealId with
  | none => (st, some "deal not found")
  | some deal =>
    match DealService.transition st deal DealStatusRefunded none "system" false with
    | (st1, .error e) => (st1, some e)
    | (st1, .ok _) => (st1, none)

/-! ### Chain indexer — cmd/ton-indexer/main.go -/

/-- An inbound transaction as the indexer sees it.  `comment` carries the
result of `extractComment` on the message body (the bit-level body
parser is outside the claims and is not modelled); `comment` is already
trimmed, as `extractComment` returns a `TrimSpace`d string. -/
structure TONTx where
  lt : Nat
  hasInternalIn : Bool
  bounced : Bool
  amountNano : Int
  srcAddr : String
  comment : String
  deriving Repr, DecidableEq

def redisProcessed : String := "ton-indexer:tx:"

/-- Embeds `processIncomingTx`: skip non-internal / bounced / non-positive
transfers and empty memos; consult the idempotency key; look the escrow up
by memo; skip non-awaiting escrows; compare the received amount against the
parsed expected amount; on success mark the escrow funded, set the deal
status to funded (unguarded `UpdateStatus`), publish `payment_received`
and record the idempotency key. -/
def processIncomingTx (st : Store) (tx : TONTx) : Store :=
  if !tx.hasInternalIn then st
  else if tx.bounced then st
  else if tx.amountNano ≤ 0 then st
  else if tx.comment = "" then st
  else
    let txKey := redisProcessed ++ toString tx.lt
    if (st.redisKeys.lookup txKey).isSome then st
    else
      let memo := tx.comment
      match EscrowRepo.getByMemo st memo with
      | none => { st with redisKeys := st.redisKeys ++ [(txKey, "no_escrow")] }
      | some escrow =>
        if escrow.status != EscrowStatusAwaiting then
          { st with redisKeys := st.redisKeys ++ [(txKey, "skip:" ++ escrow.status)] }
        else
          match parseTONToNano escrow.depositExpectedTON with
          | .error _ => st
          | .ok expectedNano =>
            if tx.amountNano < expectedNano then st
            else
              let txRef := toString tx.lt
              let fromAddr := tx.srcAddr
              let st1 := EscrowRepo.markFunded st escrow.dealId txRef fromAddr
              let st2 := DealRepo.updateStatus st1 escrow.dealId DealStatusFunded
              let st3 := Publisher.publish st2 { type := EventPaymentReceived, dealId := some escrow.dealId }
              { st3 with redisKeys := st3.redisKeys ++ [(txKey, "funded:" ++ toString escrow.dealId)] }

/-- Sequential processing of a batch of transactions (ascending by lt in
the source; the order is whatever the list carries here). -/
def processAll (st : Store) (txs : List TONTx) : Store :=
  txs.foldl processIncomingTx st

/-- Number of payment_received events carrying the deal id. -/
def countPREvents (events : List Event) (d : Nat) : Nat :=
  (events.filter (fun ev => ev.type == EventPaymentReceived && ev.dealId == some d)).length

/-- Number of payment_received events for the deal in the store — each
successful funding publishes exactly one such event, so this counts the
funding actions performed for the deal. -/
def countPaymentReceived (st : Store) (d : Nat) : Nat := countPREvents st.events d

/-- True when no escrow row of the deal is still awaiting. -/
def noAwaitingIn (escrows : List EscrowLedger) (d : Nat) : Bool :=
  escrows.all (fun e => !(e.dealId == d) || !(e.status == EscrowStatusAwaiting))

/-- True when no escrow row of the deal in the store is still awaiting. -/
def noAwaitingEscrow (st : Store) (d : Nat) : Bool := noAwaitingIn st.escrows d

/-! ### Post monitor worker — cmd/worker (runPostMonitoring) -/

/-- Result of the chat-page collaborator `parser.FetchPostContent`. -/
inductive FetchResult
  | fetchError
  | fetchOk (text : String) (present : Bool)
  deriving Repr, DecidableEq

/-- One iteration of `runPostMonitoring`'s loop body for a single deal:
fetch the post; if absent, set `is_deleted = true` and invoke
`RefundDeal` (both errors discarded in the source); if present with a
known content hash, a hash mismatch sets `is_edited = true`. -/
def monitorOneDeal (fetch : String → Int → FetchResult) (st : Store) (deal : Deal) : Store :=
  match DealRepo.getPost st deal.id with
  | none => st
  | some post =>
    if post.isDeleted then st
    else
      match ChannelRepo.getChannelByID st deal.channelId with
      | none => st
      | some ch =>
        match post.telegramMessageId with
        | some msgId =>
          match fetch ch.username msgId with
          | .fetchError => st
          | .fetchOk text present =>
            if !present then
              let st1 := DealRepo.updatePostFlags st deal.id true false
              (DealService.RefundDeal st1 deal.id).1
            else
              match post.contentHash with
              | some h =>
                if text != "" && sha256Hex text != h then
                  DealRepo.updatePostFlags st deal.id false true
                else st
              | none => st
        | none => st

/-- Embeds `runPostMonitoring`: snapshot the deals in `hold_verification`
(limit 100) and process each in turn. -/
def runPostMonitoring (st : Store) (fetch : String → Int → FetchResult) : Store :=
  let snapshot := (st.deals.filter (fun d => d.status == DealStatusHoldVerification)).take 100
  snapshot.foldl (monitorOneDeal fetch) st

/-! ### TON proof verifier — internal/ton/proof.go

Cryptographic primitives are idealized symbolically: SHA-256 is an
injective constructor on a message algebra, and an ed25519 signature is
a pair of the signer's public key and the signed message, so that
verification succeeds exactly for the message the signature was
produced over.  Byte strings are lists of naturals; Go strings enter
the byte layout through their (ASCII/UTF-8) code points. -/

abbrev Bytes := List Nat

/-- Code points of a Go string as message bytes. -/
def strBytes (s : String) : Bytes := s.data.map Char.toNat

/-- ASCII bytes of the constant `TonProofPrefix = "ton-proof-item-v2/"`. -/
def tonProofItemV2 : Bytes :=
  [116, 111, 110, 45, 112, 114, 111, 111, 102, 45, 105, 116, 101, 109, 45, 118, 50, 47]

/-- ASCII bytes of the constant `TonConnectPrefix = "ton-connect"`. -/
def tonConnectTag : Bytes :=
  [116, 111, 110, 45, 99, 111, 110, 110, 101, 99, 116]

/-- Fixed-width little-endian byte encoding. -/
def leBytes : Nat → Nat → Bytes
  | 0, _ => []
  | w + 1, n => n % 256 :: leBytes w (n / 256)

/-- Go cast `uint32(x)` of a (signed) integer. -/
def uint32OfInt (x : Int) : Nat := (x % (2 ^ 32 : Int)).toNat

/-- Go cast `uint64(x)` of a (signed) integer. -/
def uint64OfInt (x : Int) : Nat := (x % (2 ^ 64 : Int)).toNat

/-- Symbolic message algebra: plain bytes, concatenation, and SHA-256
treated as an injective constructor. -/
inductive Msg
  | bytes (bs : Bytes)
  | cat (a b : Msg)
  | sha256 (m : Msg)
  deriving Repr, DecidableEq

/-- A symbolic ed25519 signature: the public key of the signer together
with the exact message signed. -/
structure Ed25519Sig where
  pk : Bytes
  signedMsg : Msg
  deriving Repr, DecidableEq

/-- Symbolic `ed25519.Sign` by the holder of the keypair with public
part `pk`. -/
def ed25519Sign (pk : Bytes) (m : Msg) : Ed25519Sig := ⟨pk, m⟩

/-- Symbolic `ed25519.Verify`: succeeds exactly for the signed message
under the matching public key. -/
def ed25519Verify (pk : Bytes) (m : Msg) (sig : Ed25519Sig) : Bool :=
  sig.pk == pk && sig.signedMsg == m

/-- Embeds `ProofDomain` (proof.go). -/
structure ProofDomain where
  lengthBytes : Int
  value : String
  deriving Repr, DecidableEq

/-- Embeds `Proof` (proof.go); the signature is symbolic rather than a
hex string. -/
structure TonProof where
  timestamp : Int
  domain : ProofDomain
  payload : String
  signature : Ed25519Sig
  deriving Repr, DecidableEq

/-- MaxProofAge = 5 minutes, in seconds. -/
def MaxProofAge : Int := 300

/-- Embeds `isDomainAllowed`: an empty allow-list permits everything. -/
def isDomainAllowed (domain : String) (allowed : List String) : Bool :=
  allowed.isEmpty || allowed.contains domain

/-- The message byte layout of proof.go step 5 (identical to the layout
of spec section 4.6 step 3). -/
def proofMessageBytes (workchain : Int) (address : Bytes) (domainLengthBytes : Int)
    (domainValue : String) (timestamp : Int) (payload : String) : Bytes :=
  tonProofItemV2
    ++ leBytes 4 (uint32OfInt workchain)
    ++ address
    ++ leBytes 4 (uint32OfInt domainLengthBytes)
    ++ strBytes domainValue
    ++ leBytes 8 (uint64OfInt timestamp)
    ++ strBytes payload

/-- The double-hash a valid signature must sign, per spec section 4.6
steps 3-5: `SHA256(0xFF 0xFF ++ "ton-connect" ++ SHA256(message))`.
This definition follows the SPEC's construction; an honest wallet signs
exactly this value. -/
def specFinalHash (workchain : Int) (address : Bytes) (domainLengthBytes : Int)
    (domainValue : String) (timestamp : Int) (payload : String) : Msg :=
  Msg.sha256 (Msg.cat
    (Msg.bytes ([255, 255] ++ tonConnectTag))
    (Msg.sha256 (Msg.bytes
      (proofMessageBytes workchain address domainLengthBytes domainValue timestamp payload))))

/-- Embeds `VerifyProof` (proof.go): timestamp freshness, domain
allow-list, public key size, message reconstruction, double hash, and
signature verification.  Hex decoding of the key and signature is
idealized away (inputs arrive as bytes / a symbolic signature); the
public-key size check of the source is retained. -/
def VerifyProof (pubKey : Bytes) (address : Bytes) (workchain : Int) (proof : TonProof)
    (allowedDomains : List String) (now : Int) : Except String Unit :=
  if now - proof.timestamp > MaxProofAge then .error "proof expired"
  else if proof.timestamp > now + 60 then .error "proof timestamp is in the future"
  else if !(isDomainAllowed proof.domain.value allowedDomains) then
    .error "domain not in allowed list"
  else if pubKey.length ≠ 32 then .error "invalid public key size"
  else
    let message := proofMessageBytes workchain address proof.domain.lengthBytes
      proof.domain.value proof.timestamp proof.payload
    let msgHash := Msg.sha256 (Msg.bytes message)
    let signatureMessage := Msg.cat (Msg.bytes ([255, 255] ++ tonConnectTag)) msgHash
    let finalHash := Msg.sha256 signatureMessage
    if ed25519Verify pubKey finalHash proof.signature then .ok ()
    else .error "invalid signature"

/-! ### Raw address parsing — internal/ton/proof.go ParseRawAddress -/

/-- Value of a hex digit, lower- or upper-case. -/
def hexDigitVal? (c : Char) : Option Nat :=
  if c.isDigit then some (c.toNat - 48)
  else if 'a' ≤ c && c ≤ 'f' then some (c.toNat - 87)
  else if 'A' ≤ c && c ≤ 'F' then some (c.toNat - 55)
  else none

/-- Model of Go `hex.DecodeString`: pairs of hex digits; an odd length
or an invalid digit is an error. -/
def hexDecode : List Char → Option Bytes
  | [] => some []
  | [_] => none
  | c1 :: c2 :: rest =>
    match hexDigitVal? c1, hexDigitVal? c2, hexDecode rest with
    | some h, some l, some bs => some ((h * 16 + l) :: bs)
    | _, _, _ => none

/-- Scan of `%d` in `fmt.Sscanf`: an optional sign and then at least one
decimal digit. -/
def scanInt : List Char → Option (Int × List Char)
  | [] => none
  | c :: rest =>
    let scanDigits : List Char → Option (Nat × List Char) := fun cs =>
      let ds := cs.takeWhile Char.isDigit
      if ds.isEmpty then none
      else some (ds.foldl (fun acc d => acc * 10 + (d.toNat - 48)) 0, cs.dropWhile Char.isDigit)
    if c = '-' then (scanDigits rest).map (fun p => (-(p.1 : Int), p.2))
    else if c = '+' then (scanDigits rest).map (fun p => ((p.1 : Int), p.2))
    else (scanDigits (c :: rest)).map (fun p => ((p.1 : Int), p.2))

/-- The `fmt.Sscanf(raw, "%d:%s", ...)` + hex-decode sequence shared by
both branches of `ParseRawAddress`. -/
def parseAddrCore (raw : String) : Except String (Int × Bytes) :=
  match scanInt raw.data with
  | none => .error ("invalid raw address format: " ++ raw)
  | some (wc, rest) =>
    match rest with
    | ':' :: rest2 =>
      let hashChars := rest2.takeWhile (fun c => !c.isWhitespace)
      if hashChars.isEmpty then .error ("invalid raw address format: " ++ raw)
      else
        match hexDecode hashChars with
        | none => .error "invalid address hash hex"
        | some bs => .ok (wc, bs)
    | _ => .error ("invalid raw address format: " ++ raw)

/-- Embeds `ParseRawAddress`: strings not shaped `_:_` at byte index 1
take the lenient branch without the 32-byte hash length check; the
normal branch additionally requires a 32-byte hash. -/
def ParseRawAddress (raw : String) : Except String (Int × Bytes) :=
  if raw.length < 3 || raw.data.getD 1 ' ' ≠ ':' then parseAddrCore raw
  else
    match parseAddrCore raw with
    | .error e => .error e
    | .ok (wc, bs) =>
      if bs.length ≠ 32 then .error "address hash must be 32 bytes"
      else .ok (wc, bs)

/-! ### Wallet service — WalletService.ConnectWallet and WalletRepo -/

/-- Row of `ton_proof_payloads` (`payload` is UNIQUE in the schema). -/
structure TonProofPayloadRow where
  payload : String
  userId : Option Nat
  expiresAt : Int
  used : Bool
  deriving Repr, DecidableEq

/-- Row of `user_wallets` (fields the claims need). -/
structure UserWallet where
  userId : Nat
  address : String
  addressFriendly : String
  network : String
  publicKey : Bytes
  proofPayload : String
  verified : Bool
  isActive : Bool
  deriving Repr, DecidableEq

/-- State touched by the wallet service. -/
structure WalletStore where
  payloads : List TonProofPayloadRow
  wallets : List UserWallet
  audit : List AuditLog
  deriving Repr, DecidableEq

/-- Embeds `WalletRepo.ConsumeProofPayload`: a single-shot
`UPDATE ... SET used = true WHERE payload = $1 AND used = false AND
expires_at > now() RETURNING ...`; no matching row is the `ErrNoRows`
error. -/
def WalletRepo.consumeProofPayload (st : WalletStore) (payload : String) (now : Int) :
    WalletStore × Except String TonProofPayloadRow :=
  match st.payloads.find? (fun p => p.payload == payload && !p.used && p.expiresAt > now) with
  | none => (st, .error "no rows in result set")
  | some row =>
    ({ st with payloads := st.payloads.map (fun p =>
        if p.payload == payload && !p.used && p.expiresAt > now then { p with used := true } else p) },
     .ok { row with used := true })

/-- Embeds `WalletRepo.DeactivateAllWallets`. -/
def WalletRepo.deactivateAllWallets (st : WalletStore) (userId : Nat) : WalletStore :=
  { st with wallets := st.wallets.map (fun w =>
      if w.userId == userId && w.isActive then { w with isActive := false } else w) }

/-- Embeds `WalletRepo.ConnectWallet`: upsert by `(user_id, address)`,
(re)activating the row. -/
def WalletRepo.connectWallet (st : WalletStore) (w : UserWallet) : WalletStore :=
  if st.wallets.any (fun x => x.userId == w.userId && x.address == w.address) then
    { st with wallets := st.wallets.map (fun x =>
        if x.userId == w.userId && x.address == w.address then { w with isActive := true } else x) }
  else
    { st with wallets := st.wallets ++ [{ w with isActive := true }] }

/-- Embeds `ConnectWalletRequest` (public key already hex-decoded, as in
`VerifyProof`'s model). -/
structure ConnectWalletRequest where
  address : String
  addressFriendly : String
  network : String
  publicKey : Bytes
  proof : TonProof
  deriving Repr, DecidableEq

/-- Embeds `WalletService.ConnectWallet`: consume the payload nonce
FIRST, then parse the raw address, check the network, verify the proof,
deactivate prior wallets and upsert the new one.  A failure after the
consume step leaves the payload consumed (there is no transaction). -/
def WalletService.ConnectWallet (st : WalletStore) (cfg : Config) (userId : Nat)
    (req : ConnectWalletRequest) (now : Int) : WalletStore × Except String UserWallet :=
  match WalletRepo.consumeProofPayload st req.proof.payload now with
  | (st1, .error _) => (st1, .error "invalid or expired proof payload (nonce)")
  | (st1, .ok _) =>
    match ParseRawAddress req.address with
    | .error _ => (st1, .error "invalid TON address")
    | .ok (workchain, addrHash) =>
      if req.network ≠ "" && req.network ≠ cfg.tonNetwork then
        (st1, .error "network mismatch")
      else
        match VerifyProof req.publicKey addrHash workchain req.proof
            cfg.tonProofAllowedDomains now with
        | .error _ => (st1, .error "TON Proof verification failed")
        | .ok _ =>
          let st2 := WalletRepo.deactivateAllWallets st1 userId
          let wallet : UserWallet :=
            { userId := userId, address := req.address,
              addressFriendly := req.addressFriendly, network := req.network,
              publicKey := req.publicKey, proofPayload := req.proof.payload,
              verified := true, isActive := true }
          let st3 := WalletRepo.connectWallet st2 wallet
          let st4 := { st3 with audit := st3.audit ++
            [{ actorUserId := some userId, actorType := "user", action := "wallet_connected",
               entityType := "user_wallet", entityId := none }] }
          (st4, .ok wallet)

/-! ### Concrete fixtures used by witnesses and counterexamples -/

/-- Configuration used by concrete scenarios. -/
def cfgW : Config :=
  { holdPeriodSeconds := 3600, platformFeeBPS := 300, tonHotWalletAddress := "HOT",
    tonNetwork := "testnet", tonProofAllowedDomains := [] }

/-- A deal sitting in draft. -/
def dealDraftW : Deal :=
  { id := 1, channelId := 1, advertiserUserId := 20, status := DealStatusDraft,
    adFormat := AdFormatPost, priceTON := "5", platformFeeBPS := 300, holdPeriodSeconds := 3600 }

/-- A deal sitting in the terminal status completed. -/
def dealCompletedW : Deal := { dealDraftW with status := DealStatusCompleted }

/-- The empty store. -/
def emptyStore : Store :=
  { nextId := 1, deals := [], escrows := [], posts := [], channels := [], members := [],
    listings := [], audit := [], events := [], redisKeys := [] }

/-- An escrow whose funds were already released. -/
def escrowReleasedW : EscrowLedger :=
  { dealId := 1, depositExpectedTON := "5", depositAddress := "HOT", depositMemo := "deal:1",
    status := EscrowStatusReleased, fundingTxHash := some "f", payerAddress := some "p",
    releaseAmountTON := some "5", releaseTxHash := some "r", refundTxHash := none }

/-- An active listing for channel 1 enabling the post format at 5 TON. -/
def listingActiveW : ChannelListing :=
  { channelId := 1, status := "active", pricePostTON := some "5",
    priceRepostTON := none, priceStoryTON := none,
    formatsEnabled := [AdFormatPost], holdHoursPost := 1,
    holdHoursRepost := 0, holdHoursStory := 0 }

/-- The same listing in status paused. -/
def listingPausedW : ChannelListing := { listingActiveW with status := "paused" }

/-- A store with one channel, its owner, an active listing, and no deal. -/
def baseStoreW : Store :=
  { emptyStore with
    channels := [{ id := 1, username := "demo" }],
    members := [{ channelId := 1, userId := 10, role := "owner", canPost := true }],
    listings := [listingActiveW] }

/-- A deal sitting in submitted. -/
def dealSubmittedW : Deal := { dealDraftW with status := DealStatusSubmitted }

/-- The base store holding deal 1 in submitted. -/
def storeSubmittedW : Store := { baseStoreW with deals := [dealSubmittedW] }

/-- A deal sitting in creative_approved. -/
def dealCreativeApprovedW : Deal := { dealDraftW with status := DealStatusCreativeApproved }

/-- The base store holding deal 1 in creative_approved (no post row). -/
def storeCreativeApprovedW : Store := { baseStoreW with deals := [dealCreativeApprovedW] }

/-- The post row MarkManualPost upserts for deal 1 with url "u" at time 0. -/
def postMarkedW : DealPost :=
  { dealId := 1, telegramMessageId := none, telegramChatId := none, postURL := some "u",
    contentHash := some (sha256Hex "u"), postedAt := some 0, isDeleted := false,
    isEdited := false }

/-- A deal sitting in hold_verification. -/
def dealHoldW : Deal := { dealDraftW with status := DealStatusHoldVerification }

/-- The bot-created post row of deal 1, present and unedited. -/
def postHoldW : DealPost :=
  { dealId := 1, telegramMessageId := some 5, telegramChatId := some 99,
    postURL := some "https://t.me/demo/5", contentHash := some (sha256Hex "hi"),
    postedAt := some 0, isDeleted := false, isEdited := false }

/-- A store with deal 1 in hold_verification and its post row. -/
def storeHoldW : Store := { baseStoreW with deals := [dealHoldW], posts := [postHoldW] }

/-- A chat-page collaborator that reports the post as missing. -/
def fetchMissingW : String → Int → FetchResult := fun _ _ => FetchResult.fetchOk "" false

/-- Trace for the cancelled-then-paid scenario: create. -/
def c5Store1 : Store := (DealService.CreateDeal baseStoreW cfgW 20 1 "post" "").1

/-- Trace: submit. -/
def c5Store2 : Store := (DealService.SubmitDeal c5Store1 1 20).1

/-- Trace: owner accepts — deal awaiting_payment, escrow awaiting. -/
def c5Store3 : Store := (DealService.AcceptDeal c5Store2 cfgW 1 10 AcceptFault.noFault).1

/-- Trace: advertiser cancels — deal cancelled, escrow still awaiting. -/
def c5Store4 : Store := (DealService.CancelDeal c5Store3 1 20).1

/-- A matching on-chain payment arriving after the cancellation. -/
def c5Tx : TONTx :=
  { lt := 100, hasInternalIn := true, bounced := false, amountNano := 5000000000,
    srcAddr := "payer", comment := "deal:1" }

/-- Trace: the indexer processes the late payment. -/
def c5Store5 : Store := processIncomingTx c5Store4 c5Tx

/-- The store after a successful draft → submitted transition. -/
def c5OkStore : Store :=
  (DealService.transition baseStoreW dealDraftW DealStatusSubmitted none "user" false).1

/-- An awaiting escrow for deal 1 under memo deal:1. -/
def escrowAwaitW : EscrowLedger :=
  { dealId := 1, depositExpectedTON := "5", depositAddress := "HOT", depositMemo := "deal:1",
    status := EscrowStatusAwaiting, fundingTxHash := none, payerAddress := none,
    releaseAmountTON := none, releaseTxHash := none, refundTxHash := none }

/-- Deal 1 awaiting payment. -/
def dealAwaitingPaymentW : Deal := { dealDraftW with status := DealStatusAwaitingPayment }

/-- The base store with deal 1 awaiting payment and its awaiting escrow. -/
def storeAwaitW : Store :=
  { baseStoreW with deals := [dealAwaitingPaymentW], escrows := [escrowAwaitW] }

/-- A second inbound payment for the same memo at a later lt. -/
def c2Tx2 : TONTx := { c5Tx with lt := 101 }

/-- Deal 1 funded. -/
def dealFundedW : Deal := { dealDraftW with status := DealStatusFunded }

/-- The escrow of deal 1 after funding. -/
def escrowFundedW : EscrowLedger := { escrowAwaitW with status := EscrowStatusFunded }

/-- The base store after deal 1 was funded (escrow funded too). -/
def storeFundedEscrowW : Store :=
  { baseStoreW with deals := [dealFundedW], escrows := [escrowFundedW] }

/-- A concrete 32-byte public key. -/
def c7pk : Bytes := List.replicate 32 0

/-- A concrete 32-byte address hash. -/
def c7addr : Bytes := List.replicate 32 1

/-- An unused proof payload row. -/
def payloadRowW : TonProofPayloadRow :=
  { payload := "abc", userId := none, expiresAt := 1000, used := false }

/-- A wallet store holding only that payload. -/
def stWalletW : WalletStore := { payloads := [payloadRowW], wallets := [], audit := [] }

/-- A connect request with the valid payload but an unparsable address. -/
def reqBadW : ConnectWalletRequest :=
  { address := "xyz", addressFriendly := "fr", network := "testnet", publicKey := c7pk,
    proof := { timestamp := 0, domain := { lengthBytes := 0, value := "" }, payload := "abc",
               signature := ed25519Sign c7pk (Msg.bytes []) } }

/-- The corrected retry carrying the same payload. -/
def reqRetryW : ConnectWalletRequest :=
  { reqBadW with address := "0:" ++ String.mk (List.replicate 64 '0') }

end AdsMarket

namespace AdsMarket

/-! ## General lemmas -/

theorem lookup_some_mem {α β : Type} [BEq α] [LawfulBEq α] {l : List (α × β)} {a : α} {v : β}
    (h : l.lookup a = some v) : (a, v) ∈ l := by
  induction l with
  | nil => simp [List.lookup] at h
  | cons p rest ih =>
    rw [List.lookup] at h
    split at h
    · next heq => cases p; simp_all
    · exact List.mem_cons_of_mem _ (ih h)

/-! ## The transition table agrees with the table of spec 4.2.2 -/

theorem transitions_boundedIff : ∀ f ∈ allDealStatuses, ∀ t ∈ allDealStatuses,
    (IsValidTransition f t = true ↔ (f, t) ∈ specTransitionTable) := by decide

theorem transitions_valid_keys : ∀ p ∈ ValidDealTransitions,
    p.1 ∈ allDealStatuses ∧ ∀ x ∈ p.2, x ∈ allDealStatuses := by decide

theorem transitions_spec_keys : ∀ p ∈ specTransitionTable,
    p.1 ∈ allDealStatuses ∧ p.2 ∈ allDealStatuses := by decide

/-- The code's `IsValidTransition` accepts exactly the pairs of the
spec's transition table, over ALL strings (unknown statuses fail on both
sides). -/
theorem IsValidTransition_iff_specTable (f t : String) :
    IsValidTransition f t = true ↔ (f, t) ∈ specTransitionTable := by
  constructor
  · intro h
    have hlk : ∃ allowed, ValidDealTransitions.lookup f = some allowed ∧ allowed.contains t = true := by
      unfold IsValidTransition at h
      split at h
      · next allowed heq => exact ⟨allowed, heq, h⟩
      · exact absurd h (by simp)
    obtain ⟨allowed, heq, hct⟩ := hlk
    have hmem := lookup_some_mem heq
    have hk := transitions_valid_keys _ hmem
    have ht : t ∈ allowed := by simpa using hct
    exact (transitions_boundedIff f hk.1 t (hk.2 t ht)).mp h
  · intro h
    have hk := transitions_spec_keys _ h
    exact (transitions_boundedIff f hk.1 t hk.2).mpr h

/-! ## Claim C1 — transition closure of the orchestrator -/

/-- Claim C1: a status transition performed through the orchestrator's
`transition` method succeeds if and only if the (from, to) pair is
listed in the transition table of spec 4.2.2 (in which case the stored
deal reaches `to`); for every unlisted pair — including every pair
leaving the terminal statuses rejected, completed, refunded — the
operation fails with an invalid-transition error and both the store and
the deal's status are unchanged. -/
theorem transition_closure (st : Store) (deal : Deal) (t : String)
    (actorId : Option Nat) (actorType : String) :
    (((deal.status, t) ∈ specTransitionTable) →
       ∃ st', DealService.transition st deal t actorId actorType false =
           (st', .ok { deal with status := t }) ∧
         ∀ d ∈ st'.deals, d.id = deal.id → d.status = t) ∧
    (((deal.status, t) ∉ specTransitionTable) →
       DealService.transition st deal t actorId actorType false =
         (st, .error ("invalid transition from " ++ deal.status ++ " to " ++ t))) := by
  constructor
  · intro hmem
    have hv : IsValidTransition deal.status t = true :=
      (IsValidTransition_iff_specTable _ _).mpr hmem
    refine ⟨Publisher.publish (AuditRepo.log (DealRepo.updateStatus st deal.id t)
        { actorUserId := actorId, actorType := actorType,
          action := "deal_status_" ++ deal.status ++ "_to_" ++ t,
          entityType := "deal", entityId := some deal.id })
        { type := EventDealStatusChanged, dealId := some deal.id }, ?_, ?_⟩
    · unfold DealService.transition
      rw [hv]
      rfl
    · intro d hd hid
      have hd' : d ∈ st.deals.map (fun x => if x.id == deal.id then { x with status := t } else x) := hd
      obtain ⟨a, _, rfl⟩ := List.mem_map.mp hd'
      by_cases h : a.id == deal.id
      · simp [h]
      · rw [if_neg h] at hid ⊢
        exact absurd (by simpa using hid) (by simpa using h)
  · intro hmem
    have hv : IsValidTransition deal.status t = false := by
      rcases Bool.eq_false_or_eq_true (IsValidTransition deal.status t) with h | h
      · exact absurd ((IsValidTransition_iff_specTable _ _).mp h) hmem
      · exact h
    unfold DealService.transition
    rw [hv]
    rfl

/-- Witness for C1: a draft deal moves to submitted (a listed pair), and
a completed deal rejects a transition (an unlisted pair leaving a
terminal status), instantiating `transition_closure`. -/
theorem transition_closure_witness :
    (∃ st', DealService.transition baseStoreW dealDraftW "submitted" none "user" false =
        (st', .ok { dealDraftW with status := "submitted" }) ∧
      ∀ d ∈ st'.deals, d.id = dealDraftW.id → d.status = "submitted") ∧
    DealService.transition baseStoreW dealCompletedW "submitted" none "user" false =
      (baseStoreW, .error ("invalid transition from completed to submitted")) := by
  constructor
  · exact (transition_closure baseStoreW dealDraftW "submitted" none "user").1 (by decide)
  · exact (transition_closure baseStoreW dealCompletedW "submitted" none "user").2 (by decide)

/-! ## Claim C8 — parseTONToNano arithmetic -/

/-- Counterexample to claim C8 as stated: the claim says every input
containing a non-digit character returns an error, but "-5" contains a
non-digit character and converts to a value (the big-integer parse
accepts a leading sign). -/
theorem parseTONToNano_nondigit_accepted :
    ("-5".data.any (fun c => !c.isDigit)) = true ∧
    parseTONToNano "-5" = .ok (-5000000000) := by decide

/-- Claim C8 (amended): the stated conversions hold ("5" ↦ 5·10⁹,
"5.5" ↦ 5 500 000 000, "0.000000001" ↦ 1, "5.5555555559" ↦
5 555 555 555 with truncation after nine fractional digits), and the
empty string, multiple dots, and non-digit characters that survive into
the parsed digits are errors; however a leading + or − sign is accepted
by the underlying big-integer parse, and characters beyond the ninth
fractional digit are truncated before validation, so inputs such as
"-5" and "5.000000001x" return values. -/
theorem parseTONToNano_spec_values :
    parseTONToNano "5" = .ok 5000000000 ∧
    parseTONToNano "5.5" = .ok 5500000000 ∧
    parseTONToNano "0.000000001" = .ok 1 ∧
    parseTONToNano "5.5555555559" = .ok 5555555555 ∧
    parseTONToNano "" = .error "empty TON amount" ∧
    parseTONToNano "5.5.5" = .error "invalid TON amount: 5.5.5" ∧
    parseTONToNano "abc" = .error "invalid TON amount: abc" ∧
    parseTONToNano "5a.1" = .error "invalid TON amount: 5a.1" ∧
    parseTONToNano "5.5x" = .error "invalid TON amount: 5.5x" ∧
    parseTONToNano "-5" = .ok (-5000000000) ∧
    parseTONToNano "+5" = .ok 5000000000 ∧
    parseTONToNano "5.000000001x" = .ok 5000000001 := by decide

/-! ## Claim C4 — state guards of the escrow mark operations -/

/-- A store holding only a released escrow for deal 1. -/
def storeReleasedW : Store := { emptyStore with escrows := [escrowReleasedW] }

/-- Every element of a list fixed by a function is fixed by the map. -/
theorem listMapIdOn {α : Type} {l : List α} {f : α → α} (h : ∀ x ∈ l, f x = x) :
    l.map f = l := by
  induction l with
  | nil => rfl
  | cons a rest ih =>
    simp only [List.map_cons]
    rw [h a (List.mem_cons_self a rest), ih (fun x hx => h x (List.mem_cons_of_mem a hx))]

/-- Counterexample to claim C4 as stated: `MarkRefunded` carries no
status guard — it overwrites even a `released` escrow (a prior status
that does not permit refund in the escrow lifecycle
awaiting → funded → released | refunded), so the row is NOT left
unchanged on a non-matching prior status. -/
theorem markRefunded_overwrites_released :
    (EscrowRepo.markRefunded storeReleasedW 1 "rf").escrows =
      [{ escrowReleasedW with status := EscrowStatusRefunded, refundTxHash := some "rf" }] ∧
    EscrowRepo.markRefunded storeReleasedW 1 "rf" ≠ storeReleasedW := by decide

/-- Claim C4 (amended): `MarkReleased` is state-guarded analogously to
`MarkFunded` (guard `status = 'funded'` respectively `'awaiting'`; a
non-matching row is left unchanged and the call is a no-op), but
`MarkRefunded` is NOT state-guarded: it updates the escrow row of the
deal to `refunded` regardless of the prior status. -/
theorem escrow_mark_guards (st : Store) (d : Nat) (amount txF payer txRel txRef : String) :
    ((∀ e ∈ st.escrows, e.dealId = d → e.status ≠ EscrowStatusAwaiting) →
      EscrowRepo.markFunded st d txF payer = st) ∧
    ((∀ e ∈ st.escrows, e.dealId = d → e.status ≠ EscrowStatusFunded) →
      EscrowRepo.markReleased st d amount txRel = st) ∧
    (∀ e ∈ st.escrows, e.dealId = d →
      { e with status := EscrowStatusRefunded, refundTxHash := some txRef } ∈
        (EscrowRepo.markRefunded st d txRef).escrows) := by
  refine ⟨?_, ?_, ?_⟩
  · intro h
    have hmap : st.escrows.map (fun e =>
        if e.dealId == d && e.status == EscrowStatusAwaiting then { e with status := EscrowStatusFunded, fundingTxHash := some txF, payerAddress := some payer } else e) = st.escrows := by
      apply listMapIdOn
      intro e he
      by_cases hd : e.dealId = d
      · have hs : (e.status == EscrowStatusAwaiting) = false :=
          beq_eq_false_iff_ne.mpr (h e he hd)
        simp [hs]
      · have hd' : (e.dealId == d) = false := beq_eq_false_iff_ne.mpr hd
        simp [hd']
    show { st with escrows := _ } = st
    rw [hmap]
  · intro h
    have hmap : st.escrows.map (fun e =>
        if e.dealId == d && e.status == EscrowStatusFunded then { e with status := EscrowStatusReleased, releaseAmountTON := some amount, releaseTxHash := some txRel } else e) = st.escrows := by
      apply listMapIdOn
      intro e he
      by_cases hd : e.dealId = d
      · have hs : (e.status == EscrowStatusFunded) = false :=
          beq_eq_false_iff_ne.mpr (h e he hd)
        simp [hs]
      · have hd' : (e.dealId == d) = false := beq_eq_false_iff_ne.mpr hd
        simp [hd']
    show { st with escrows := _ } = st
    rw [hmap]
  · intro e he hd
    have : (e.dealId == d) = true := beq_iff_eq.mpr hd
    have hm := List.mem_map_of_mem (fun e =>
      if e.dealId == d then
        { e with status := EscrowStatusRefunded, refundTxHash := some txRef }
      else e) he
    simpa [EscrowRepo.markRefunded, this] using hm

/-- Witness for C4's amended theorem: on a store holding a released
escrow, `MarkFunded` is a no-op and `MarkRefunded` still rewrites the
row, instantiating `escrow_mark_guards`. -/
theorem escrow_mark_guards_witness :
    EscrowRepo.markFunded storeReleasedW 1 "tx" "payer" = storeReleasedW ∧
    { escrowReleasedW with status := EscrowStatusRefunded, refundTxHash := some "rf" } ∈
      (EscrowRepo.markRefunded storeReleasedW 1 "rf").escrows := by
  constructor
  · exact (escrow_mark_guards storeReleasedW 1 "5" "tx" "payer" "r" "rf").1 (by decide)
  · exact (escrow_mark_guards storeReleasedW 1 "5" "tx" "payer" "r" "rf").2.2
      escrowReleasedW (by decide) (by decide)

/-! ## Claim C9 — CreateDeal requirements -/

/-- The base store with the channel's listing in status paused. -/
def storePausedW : Store :=
  { baseStoreW with listings := [listingPausedW] }

/-- Counterexample to claim C9 as stated: the target channel's listing
is in status paused — not active — yet CreateDeal succeeds and persists
a draft deal (the source never inspects `listing.status`). -/
theorem createDeal_ignores_listing_status :
    (ChannelRepo.getListing storePausedW 1).map (fun l => l.status) = some "paused" ∧
    (DealService.CreateDeal storePausedW cfgW 20 1 "post" "").2 = .ok dealDraftW ∧
    (DealService.CreateDeal storePausedW cfgW 20 1 "post" "").1.deals = [dealDraftW] := by
  decide

/-- Claim C9 (amended): CreateDeal succeeds exactly when the channel has
a listing (of ANY status — active is not required), the requested
ad_format is valid and enabled in the listing, and a price resolves
(either a non-empty non-zero hint, or a non-empty listing price for the
format); on failure the store is unchanged (no deal is created), and on
success exactly one draft deal is appended. -/
theorem createDeal_success_iff (st : Store) (cfg : Config) (adv ch : Nat)
    (fmt price : String) :
    ((DealService.CreateDeal st cfg adv ch fmt price).2.isOk = true ↔
      IsValidAdFormat fmt = true ∧
      ∃ l, ChannelRepo.getListing st ch = some l ∧ l.IsFormatEnabled fmt = true ∧
        ((price ≠ "" ∧ price ≠ "0") ∨ ∃ p, l.GetPriceForFormat fmt = some p ∧ p ≠ "")) ∧
    ((DealService.CreateDeal st cfg adv ch fmt price).2.isOk = false →
      (DealService.CreateDeal st cfg adv ch fmt price).1 = st) ∧
    ((DealService.CreateDeal st cfg adv ch fmt price).2.isOk = true →
      ∃ deal, (DealService.CreateDeal st cfg adv ch fmt price).2 = .ok deal ∧
        (DealService.CreateDeal st cfg adv ch fmt price).1.deals = st.deals ++ [deal] ∧
        deal.status = DealStatusDraft ∧ deal.adFormat = fmt) := by
  by_cases hf : IsValidAdFormat fmt = true
  · cases hl : ChannelRepo.getListing st ch with
    | none =>
      simp [DealService.CreateDeal, hf, hl, Except.isOk, Except.toBool]
    | some l =>
      by_cases he : l.IsFormatEnabled fmt = true
      · by_cases hp : (price = "" || price = "0") = true
        · cases hpf : l.GetPriceForFormat fmt with
          | none =>
            simp [DealService.CreateDeal, hf, hl, he, hp, hpf, Except.isOk, Except.toBool,
              AuditRepo.log]
            intro hne
            rcases Bool.or_eq_true_iff.mp hp with h1 | h1
            · exact absurd (by simpa using h1) hne
            · simpa using h1
          | some p =>
            by_cases hpe : p = ""
            · subst hpe
              simp [DealService.CreateDeal, hf, hl, he, hp, hpf, Except.isOk, Except.toBool,
                AuditRepo.log]
              intro hne
              rcases Bool.or_eq_true_iff.mp hp with h1 | h1
              · exact absurd (by simpa using h1) hne
              · simpa using h1
            · simp [DealService.CreateDeal, hf, hl, he, hp, hpf, hpe, Except.isOk,
                Except.toBool, AuditRepo.log]
        · have hp' : (price = "" || price = "0") = false := by simpa using hp
          simp [DealService.CreateDeal, hf, hl, he, hp', Except.isOk, Except.toBool,
            AuditRepo.log]
          exact Or.inl (by simpa using hp')
      · have he' : l.IsFormatEnabled fmt = false := by simpa using he
        simp [DealService.CreateDeal, hf, hl, he', Except.isOk, Except.toBool]
  · have hf' : IsValidAdFormat fmt = false := by simpa using hf
    simp [DealService.CreateDeal, hf', Except.isOk, Except.toBool]

/-- Witness for C9's amended theorem: on the paused-listing store the
success criterion holds without any listing-status requirement, and on
the empty store CreateDeal fails and changes nothing, instantiating
`createDeal_success_iff`. -/
theorem createDeal_success_iff_witness :
    (DealService.CreateDeal storePausedW cfgW 20 1 "post" "").2.isOk = true ∧
    (DealService.CreateDeal emptyStore cfgW 20 1 "post" "").1 = emptyStore := by
  constructor
  · exact (createDeal_success_iff storePausedW cfgW 20 1 "post" "").1.mpr
      ⟨by decide, ⟨listingPausedW, by decide, by decide, Or.inr ⟨"5", by decide, by decide⟩⟩⟩
  · exact (createDeal_success_iff emptyStore cfgW 20 1 "post" "").2.1 (by decide)

/-! ## Claim C2 — at-most-once funding -/

theorem allCongrOn {α : Type} {l : List α} {p q : α → Bool} (h : ∀ x ∈ l, p x = q x) :
    l.all p = l.all q := by
  induction l with
  | nil => rfl
  | cons a rest ih =>
    simp only [List.all_cons]
    rw [h a (List.mem_cons_self a rest), ih (fun x hx => h x (List.mem_cons_of_mem a hx))]

theorem noAwaitingIn_fund_self (l : List EscrowLedger) (d : Nat) (th pa : String) :
    noAwaitingIn (l.map (fun e =>
      if e.dealId == d && e.status == EscrowStatusAwaiting then { e with status := EscrowStatusFunded, fundingTxHash := some th, payerAddress := some pa } else e)) d = true := by
  unfold noAwaitingIn
  rw [List.all_eq_true]
  intro x hx
  obtain ⟨e, he, rfl⟩ := List.mem_map.mp hx
  by_cases hc : (e.dealId == d && e.status == EscrowStatusAwaiting) = true
  · rw [if_pos hc]
    simp [EscrowStatusFunded, EscrowStatusAwaiting]
  · rw [if_neg hc]
    have hc' : (e.dealId == d && e.status == EscrowStatusAwaiting) = false := by
      simpa using hc
    rw [← Bool.not_and]
    simp [hc']

theorem noAwaitingIn_fund_other (l : List EscrowLedger) (d' d : Nat) (hne : d' ≠ d)
    (th pa : String) :
    noAwaitingIn (l.map (fun e =>
      if e.dealId == d' && e.status == EscrowStatusAwaiting then { e with status := EscrowStatusFunded, fundingTxHash := some th, payerAddress := some pa } else e)) d =
    noAwaitingIn l d := by
  unfold noAwaitingIn
  rw [List.all_map]
  apply allCongrOn
  intro e he
  simp only [Function.comp_apply]
  by_cases hc : (e.dealId == d' && e.status == EscrowStatusAwaiting) = true
  · rw [if_pos hc]
    have h1 : e.dealId = d' := beq_iff_eq.mp (Bool.and_eq_true_iff.mp hc).1
    have h2 : (e.dealId == d) = false := by
      rw [beq_eq_false_iff_ne, h1]
      exact hne
    simp [h2]
  · rw [if_neg hc]

theorem countPREvents_append (evs : List Event) (ev : Event) (d : Nat) :
    countPREvents (evs ++ [ev]) d =
      countPREvents evs d +
        (if (ev.type == EventPaymentReceived && ev.dealId == some d) = true then 1 else 0) := by
  unfold countPREvents
  rw [List.filter_append, List.length_append]
  congr 1
  split
  · next h => simp [List.filter, h]
  · next h =>
    have h' : (ev.type == EventPaymentReceived && ev.dealId == some d) = false := by
      simpa using h
    simp [List.filter, h']

/-- One indexer step preserves the measure
`countPaymentReceived + (awaiting escrow of the deal present ? 1 : 0)`. -/
theorem processTx_R (st : Store) (tx : TONTx) (d : Nat) :
    countPaymentReceived (processIncomingTx st tx) d +
      (if noAwaitingEscrow (processIncomingTx st tx) d then 0 else 1) =
    countPaymentReceived st d + (if noAwaitingEscrow st d then 0 else 1) := by
  by_cases h1 : tx.hasInternalIn = true
  case neg =>
    have h1' : tx.hasInternalIn = false := by simpa using h1
    simp [processIncomingTx, h1']
  by_cases h2 : tx.bounced = true
  case pos _ => simp [processIncomingTx, h1, h2]
  have h2' : tx.bounced = false := by simpa using h2
  by_cases h3 : tx.amountNano ≤ 0
  case pos _ => simp [processIncomingTx, h1, h2', h3]
  by_cases h4 : tx.comment = ""
  case pos _ => simp [processIncomingTx, h1, h2', h3, h4]
  by_cases h5 : (st.redisKeys.lookup (redisProcessed ++ toString tx.lt)).isSome = true
  case pos _ => simp [processIncomingTx, h1, h2', h3, h4, h5]
  have h5' : (st.redisKeys.lookup (redisProcessed ++ toString tx.lt)).isSome = false := by
    cases hx : (st.redisKeys.lookup (redisProcessed ++ toString tx.lt)).isSome with
    | false => rfl
    | true => exact absurd hx h5
  cases hfound : EscrowRepo.getByMemo st tx.comment with
  | none =>
    simp [processIncomingTx, h1, h2', h3, h4, h5', hfound, countPaymentReceived,
      noAwaitingEscrow]
  | some escrow =>
    by_cases h6 : escrow.status = EscrowStatusAwaiting
    case neg _ _ =>
      simp [processIncomingTx, h1, h2', h3, h4, h5', hfound, h6, countPaymentReceived,
        noAwaitingEscrow]
    cases hparse : parseTONToNano escrow.depositExpectedTON with
    | error e =>
      simp [processIncomingTx, h1, h2', h3, h4, h5', hfound, h6, hparse]
    | ok expected =>
      by_cases h7 : tx.amountNano < expected
      case pos _ _ =>
        simp [processIncomingTx, h1, h2', h3, h4, h5', hfound, h6, hparse, h7]
      have hres : processIncomingTx st tx = { st with
          escrows := st.escrows.map (fun e => if e.dealId == escrow.dealId && e.status == EscrowStatusAwaiting then { e with status := EscrowStatusFunded, fundingTxHash := some (toString tx.lt), payerAddress := some tx.srcAddr } else e),
          deals := st.deals.map (fun x => if x.id == escrow.dealId then { x with status := DealStatusFunded } else x),
          events := st.events ++ [{ type := EventPaymentReceived, dealId := some escrow.dealId }],
          redisKeys := st.redisKeys ++ [(redisProcessed ++ toString tx.lt, "funded:" ++ toString escrow.dealId)] } := by
        simp [processIncomingTx, h1, h2', h3, h4, h5', hfound, h6, hparse, h7,
          EscrowRepo.markFunded, DealRepo.updateStatus, Publisher.publish]
      rw [hres]
      have hmem : escrow ∈ st.escrows := by
        have : st.escrows.find? (fun e => e.depositMemo == tx.comment) = some escrow := hfound
        exact List.mem_of_find?_eq_some this
      by_cases hd : escrow.dealId = d
      · subst hd
        have hQ : countPaymentReceived { st with
            escrows := st.escrows.map (fun e => if e.dealId == escrow.dealId && e.status == EscrowStatusAwaiting then { e with status := EscrowStatusFunded, fundingTxHash := some (toString tx.lt), payerAddress := some tx.srcAddr } else e),
            deals := st.deals.map (fun x => if x.id == escrow.dealId then { x with status := DealStatusFunded } else x),
            events := st.events ++ [{ type := EventPaymentReceived, dealId := some escrow.dealId }],
            redisKeys := st.redisKeys ++ [(redisProcessed ++ toString tx.lt, "funded:" ++ toString escrow.dealId)] } escrow.dealId = countPaymentReceived st escrow.dealId + 1 := by
          show countPREvents (st.events ++ [{ type := EventPaymentReceived, dealId := some escrow.dealId }]) escrow.dealId = _
          rw [countPREvents_append]
          simp [EventPaymentReceived, countPaymentReceived]
        rw [hQ]
        have hNA : noAwaitingEscrow { st with
            escrows := st.escrows.map (fun e => if e.dealId == escrow.dealId && e.status == EscrowStatusAwaiting then { e with status := EscrowStatusFunded, fundingTxHash := some (toString tx.lt), payerAddress := some tx.srcAddr } else e),
            deals := st.deals.map (fun x => if x.id == escrow.dealId then { x with status := DealStatusFunded } else x),
            events := st.events ++ [{ type := EventPaymentReceived, dealId := some escrow.dealId }],
            redisKeys := st.redisKeys ++ [(redisProcessed ++ toString tx.lt, "funded:" ++ toString escrow.dealId)] } escrow.dealId = true := by
          show noAwaitingIn (st.escrows.map _) escrow.dealId = true
          exact noAwaitingIn_fund_self st.escrows escrow.dealId (toString tx.lt) tx.srcAddr
        rw [hNA]
        have hNA0 : noAwaitingEscrow st escrow.dealId = false := by
          show noAwaitingIn st.escrows escrow.dealId = false
          cases hall : (noAwaitingIn st.escrows escrow.dealId) with
          | false => rfl
          | true =>
            exfalso
            unfold noAwaitingIn at hall
            have := List.all_eq_true.mp hall escrow hmem
            simp [h6] at this
        rw [hNA0]
        simp
      · have hQ : countPaymentReceived { st with
            escrows := st.escrows.map (fun e => if e.dealId == escrow.dealId && e.status == EscrowStatusAwaiting then { e with status := EscrowStatusFunded, fundingTxHash := some (toString tx.lt), payerAddress := some tx.srcAddr } else e),
            deals := st.deals.map (fun x => if x.id == escrow.dealId then { x with status := DealStatusFunded } else x),
            events := st.events ++ [{ type := EventPaymentReceived, dealId := some escrow.dealId }],
            redisKeys := st.redisKeys ++ [(redisProcessed ++ toString tx.lt, "funded:" ++ toString escrow.dealId)] } d = countPaymentReceived st d := by
          show countPREvents (st.events ++ [{ type := EventPaymentReceived, dealId := some escrow.dealId }]) d = _
          rw [countPREvents_append]
          simp [countPaymentReceived, hd]
        rw [hQ]
        have hNA : noAwaitingEscrow { st with
            escrows := st.escrows.map (fun e => if e.dealId == escrow.dealId && e.status == EscrowStatusAwaiting then { e with status := EscrowStatusFunded, fundingTxHash := some (toString tx.lt), payerAddress := some tx.srcAddr } else e),
            deals := st.deals.map (fun x => if x.id == escrow.dealId then { x with status := DealStatusFunded } else x),
            events := st.events ++ [{ type := EventPaymentReceived, dealId := some escrow.dealId }],
            redisKeys := st.redisKeys ++ [(redisProcessed ++ toString tx.lt, "funded:" ++ toString escrow.dealId)] } d = noAwaitingEscrow st d := by
          show noAwaitingIn (st.escrows.map _) d = noAwaitingIn st.escrows d
          exact noAwaitingIn_fund_other st.escrows escrow.dealId d hd (toString tx.lt) tx.srcAddr
        rw [hNA]

/-- Folding the indexer over a transaction list preserves the measure. -/
theorem processAll_R (txs : List TONTx) (st : Store) (d : Nat) :
    countPaymentReceived (processAll st txs) d +
      (if noAwaitingEscrow (processAll st txs) d then 0 else 1) =
    countPaymentReceived st d + (if noAwaitingEscrow st d then 0 else 1) := by
  induction txs generalizing st with
  | nil => rfl
  | cons tx rest ih =>
    have hstep : processAll st (tx :: rest) = processAll (processIncomingTx st tx) rest := rfl
    rw [hstep, ih (processIncomingTx st tx)]
    exact processTx_R st tx d


/-- Claim C2: for every escrow in status awaiting and every transaction
sequence carrying its memo, the indexer funds the escrow at most once
(at most one payment_received event for the deal is added across any
processed sequence); marking a non-awaiting escrow funded affects zero
rows and is a no-op; and the indexer merely records a skip marker — no
escrow, deal, or event change — for a transaction whose escrow is no
longer awaiting. -/
theorem escrow_funded_at_most_once :
    (∀ (st : Store) (d : Nat) (e : EscrowLedger) (txs : List TONTx),
      e ∈ st.escrows → e.dealId = d → e.status = EscrowStatusAwaiting →
      countPaymentReceived (processAll st txs) d ≤ countPaymentReceived st d + 1) ∧
    (∀ (st : Store) (d : Nat) (txHash payer : String),
      noAwaitingEscrow st d = true → EscrowRepo.markFunded st d txHash payer = st) ∧
    (∀ (st : Store) (tx : TONTx) (esc : EscrowLedger),
      tx.hasInternalIn = true → tx.bounced = false → 0 < tx.amountNano →
      tx.comment ≠ "" →
      (st.redisKeys.lookup (redisProcessed ++ toString tx.lt)).isSome = false →
      EscrowRepo.getByMemo st tx.comment = some esc →
      esc.status ≠ EscrowStatusAwaiting →
      processIncomingTx st tx = { st with redisKeys := st.redisKeys ++
        [(redisProcessed ++ toString tx.lt, "skip:" ++ esc.status)] }) := by
  refine ⟨?_, ?_, ?_⟩
  · intro st d e txs hmem hd hstat
    have hR := processAll_R txs st d
    have h0 : noAwaitingEscrow st d = false := by
      cases hall : noAwaitingEscrow st d with
      | false => rfl
      | true =>
        exfalso
        unfold noAwaitingEscrow noAwaitingIn at hall
        have := List.all_eq_true.mp hall e hmem
        simp [hd, hstat] at this
    rw [h0] at hR
    cases hna : noAwaitingEscrow (processAll st txs) d <;> rw [hna] at hR <;>
      simp at hR <;> omega
  · intro st d th pa h
    have hmap : st.escrows.map (fun e =>
        if e.dealId == d && e.status == EscrowStatusAwaiting then { e with status := EscrowStatusFunded, fundingTxHash := some th, payerAddress := some pa } else e) = st.escrows := by
      apply listMapIdOn
      intro e he
      unfold noAwaitingEscrow noAwaitingIn at h
      have hp := List.all_eq_true.mp h e he
      by_cases hdd : (e.dealId == d) = true
      · have hs : (e.status == EscrowStatusAwaiting) = false := by
          rcases Bool.or_eq_true_iff.mp hp with h1 | h1
          · rw [hdd] at h1; exact absurd h1 (by decide)
          · simpa using h1
        simp [hs]
      · have hdd' : (e.dealId == d) = false := by simpa using hdd
        simp [hdd']
    show { st with escrows := _ } = st
    rw [hmap]
  · intro st tx esc h1 h2 h3 h4 h5 h6 h7
    have h3' : ¬ (tx.amountNano ≤ 0) := by omega
    have h7' : (esc.status == EscrowStatusAwaiting) = false := beq_eq_false_iff_ne.mpr h7
    simp [processIncomingTx, h1, h2, h3', h4, h5, h6, h7, h7']

/-- Witness for C2: two identical payments for the awaiting escrow of
deal 1 add at most one payment event; marking the already-funded escrow
funded again is a no-op; and a further transaction for the funded
escrow only adds a skip marker — all by instantiating
`escrow_funded_at_most_once`. -/
theorem escrow_funded_at_most_once_witness :
    countPaymentReceived (processAll storeAwaitW [c5Tx, c2Tx2]) 1 ≤
      countPaymentReceived storeAwaitW 1 + 1 ∧
    EscrowRepo.markFunded storeFundedEscrowW 1 "x" "y" = storeFundedEscrowW ∧
    processIncomingTx storeFundedEscrowW c2Tx2 = { storeFundedEscrowW with
      redisKeys := storeFundedEscrowW.redisKeys ++
        [(redisProcessed ++ toString c2Tx2.lt, "skip:" ++ EscrowStatusFunded)] } := by
  refine ⟨?_, ?_, ?_⟩
  · exact escrow_funded_at_most_once.1 storeAwaitW 1 escrowAwaitW [c5Tx, c2Tx2]
      (by decide) (by decide) (by decide)
  · exact escrow_funded_at_most_once.2.1 storeFundedEscrowW 1 "x" "y" (by decide)
  · exact escrow_funded_at_most_once.2.2 storeFundedEscrowW c2Tx2 escrowFundedW
      (by decide) (by decide) (by decide) (by decide) (by decide) (by decide) (by decide)

/-! ## Claim C3 — post deletion during hold -/

/-- Claim C3: for a deal in hold_verification whose post the monitor
finds missing, the code sets is_deleted = true as the claim states, but
the deal does NOT reach refunded: RefundDeal attempts the single
transition hold_verification → refunded, which the transition table
rejects, and the discarded error leaves the deal in hold_verification
(the spec's scenario "deal reaches refunded" cannot happen). -/
theorem postMonitor_deleted_no_refund :
    ((DealRepo.getPost (runPostMonitoring storeHoldW fetchMissingW) 1).map
        (fun p => p.isDeleted) = some true) ∧
    ((DealRepo.getByID (runPostMonitoring storeHoldW fetchMissingW) 1).map
        (fun d => d.status) = some DealStatusHoldVerification) ∧
    IsValidTransition DealStatusHoldVerification DealStatusRefunded = false ∧
    (DealService.RefundDeal (DealRepo.updatePostFlags storeHoldW 1 true false) 1).2 =
      some ("invalid transition from hold_verification to refunded") := by decide

/-! ## Claim C5 — status writes and valid successors -/

/-- Counterexample to claim C5 as stated: starting from a base store and
using only the modelled operations (create, submit, accept, cancel), a
deal reaches cancelled while its escrow is still awaiting; the indexer
then processes a matching payment and writes funded over cancelled —
cancelled → funded is not a valid successor, so a component CAN write an
invalid successor. -/
theorem indexer_funds_cancelled_deal :
    ((DealRepo.getByID c5Store4 1).map (fun d => d.status) = some DealStatusCancelled) ∧
    ((EscrowRepo.getByMemo c5Store4 "deal:1").map (fun e => e.status) = some EscrowStatusAwaiting) ∧
    ((DealRepo.getByID c5Store5 1).map (fun d => d.status) = some DealStatusFunded) ∧
    IsValidTransition DealStatusCancelled DealStatusFunded = false := by decide

/-- Claim C5 (amended): transitions performed through the orchestrator's
`transition` gate always write a valid successor of the deal's current
status; the indexer, however, writes funded guarded only by the ESCROW
being awaiting, so after a cancellation in awaiting_payment it can set
a cancelled deal to funded (see the counterexample). -/
theorem orchestrator_writes_valid_successors :
    ∀ (st : Store) (deal : Deal) (ns : String) (a : Option Nat) (actorType : String)
      (fault : Bool) (st' : Store) (d' : Deal),
      DealService.transition st deal ns a actorType fault = (st', .ok d') →
      IsValidTransition deal.status ns = true := by
  intro st deal ns a actorType fault st' d' h
  by_cases hv : IsValidTransition deal.status ns = true
  · exact hv
  · have hvf : IsValidTransition deal.status ns = false := by simpa using hv
    unfold DealService.transition at h
    rw [hvf] at h
    simp at h

/-- Witness for C5's amended theorem: instantiates
`orchestrator_writes_valid_successors` on the draft → submitted
transition of the base store. -/
theorem orchestrator_writes_valid_successors_witness :
    IsValidTransition dealDraftW.status DealStatusSubmitted = true :=
  orchestrator_writes_valid_successors baseStoreW dealDraftW DealStatusSubmitted none "user" false
    c5OkStore { dealDraftW with status := DealStatusSubmitted } (by decide)

/-! ## Claim C6 — failure semantics of multi-step operations -/

/-- Counterexample to claim C6 as stated: a failing step does NOT leave
the deal and associated rows as they were before the operation.
AcceptDeal on a submitted deal whose escrow insertion fails returns the
error but leaves the deal in awaiting_payment (both transitions already
committed); MarkManualPost on a creative_approved deal whose second
transition fails returns the error but leaves the post row upserted and
the deal in posted. -/
theorem acceptDeal_markManualPost_partial_commit :
    ((DealService.AcceptDeal storeSubmittedW cfgW 1 10 AcceptFault.escrowCreateFails).2 =
      some "storage error" ∧
    ((DealRepo.getByID
        (DealService.AcceptDeal storeSubmittedW cfgW 1 10 AcceptFault.escrowCreateFails).1 1).map
      (fun d => d.status) = some DealStatusAwaitingPayment) ∧
    (DealService.AcceptDeal storeSubmittedW cfgW 1 10 AcceptFault.escrowCreateFails).1.escrows = [] ∧
    DealStatusAwaitingPayment ≠ DealStatusSubmitted) ∧
    ((DealService.MarkManualPost storeCreativeApprovedW 1 10 "u" 0
        MarkPostFault.secondUpdateFails).2 = some "storage error" ∧
    ((DealRepo.getByID
        (DealService.MarkManualPost storeCreativeApprovedW 1 10 "u" 0
          MarkPostFault.secondUpdateFails).1 1).map
      (fun d => d.status) = some DealStatusPosted) ∧
    (DealService.MarkManualPost storeCreativeApprovedW 1 10 "u" 0
        MarkPostFault.secondUpdateFails).1.posts = [postMarkedW] ∧
    DealStatusPosted ≠ DealStatusCreativeApproved) := by decide

/-- Claim C6 (amended): each individual transition is a single atomic
step — a transition whose status update fails leaves the store entirely
unchanged — but AcceptDeal and MarkManualPost are multi-step operations
without a surrounding transaction: a failure at a later step reports
the error yet leaves the already-performed steps committed.  AcceptDeal
failing at the escrow insertion leaves the deal in awaiting_payment
with no escrow row; MarkManualPost failing at the second transition
leaves the post row upserted and the deal in posted. -/
theorem transition_atomic_but_multi_step_ops_commit :
    (∀ (st : Store) (deal : Deal) (ns : String) (a : Option Nat) (actorType : String),
      (DealService.transition st deal ns a actorType true).1 = st) ∧
    (∀ (st : Store) (cfg : Config) (dealId actorId : Nat) (deal : Deal),
      DealRepo.getByID st dealId = some deal →
      DealService.checkChannelRole st deal.channelId actorId false = none →
      deal.status = DealStatusSubmitted →
      (DealService.AcceptDeal st cfg dealId actorId AcceptFault.escrowCreateFails).2 =
          some "storage error" ∧
        (∀ d ∈ (DealService.AcceptDeal st cfg dealId actorId AcceptFault.escrowCreateFails).1.deals,
          d.id = deal.id → d.status = DealStatusAwaitingPayment) ∧
        (DealService.AcceptDeal st cfg dealId actorId AcceptFault.escrowCreateFails).1.escrows =
          st.escrows) ∧
    (∀ (st : Store) (dealId actorId : Nat) (postURL : String) (now : Int) (deal : Deal),
      DealRepo.getByID st dealId = some deal →
      DealService.checkChannelRole st deal.channelId actorId false = none →
      deal.status = DealStatusCreativeApproved →
      DealRepo.getPost st dealId = none →
      (DealService.MarkManualPost st dealId actorId postURL now
          MarkPostFault.secondUpdateFails).2 = some "storage error" ∧
        (∀ d ∈ (DealService.MarkManualPost st dealId actorId postURL now
            MarkPostFault.secondUpdateFails).1.deals,
          d.id = deal.id → d.status = DealStatusPosted) ∧
        (DealService.MarkManualPost st dealId actorId postURL now
            MarkPostFault.secondUpdateFails).1.posts = st.posts ++
          [{ dealId := dealId, telegramMessageId := none, telegramChatId := none,
             postURL := some postURL, contentHash := some (sha256Hex postURL),
             postedAt := some now, isDeleted := false, isEdited := false }]) := by
  refine ⟨?_, ?_, ?_⟩
  · intro st deal ns a actorType
    by_cases hv : IsValidTransition deal.status ns = true
    · unfold DealService.transition
      rw [hv]
      rfl
    · have hvf : IsValidTransition deal.status ns = false := by simpa using hv
      unfold DealService.transition
      rw [hvf]
      rfl
  · intro st cfg dealId actorId deal h1 h2 h3
    have hv1 : IsValidTransition deal.status DealStatusAccepted = true := by
      rw [h3]; decide
    have hv2 : IsValidTransition DealStatusAccepted DealStatusAwaitingPayment = true := by decide
    refine ⟨?_, ?_, ?_⟩
    · simp [DealService.AcceptDeal, h1, h2, DealService.transition, hv1, hv2,
        AuditRepo.log, Publisher.publish, DealRepo.updateStatus]
    · intro d hd hid
      simp only [DealService.AcceptDeal, h1, h2, DealService.transition, hv1, hv2,
        Bool.not_true, Bool.false_eq_true, if_false, AuditRepo.log, Publisher.publish,
        DealRepo.updateStatus] at hd
      have hd' : d ∈ (st.deals.map (fun x =>
          if x.id == deal.id then { x with status := DealStatusAccepted } else x)).map
          (fun x => if x.id == deal.id then { x with status := DealStatusAwaitingPayment } else x) := by
        exact hd
      obtain ⟨b, hb, rfl⟩ := List.mem_map.mp hd'
      by_cases h : b.id == deal.id
      · simp [h]
      · rw [if_neg h] at hid
        exact absurd (beq_iff_eq.mpr hid) h
    · simp [DealService.AcceptDeal, h1, h2, DealService.transition, hv1, hv2,
        AuditRepo.log, Publisher.publish, DealRepo.updateStatus]
  · intro st dealId actorId postURL now deal h1 h2 h3 hnopost
    have hcond : (deal.status != DealStatusCreativeApproved &&
        deal.status != DealStatusScheduled) = false := by
      rw [h3]; decide
    have hv1 : IsValidTransition deal.status DealStatusPosted = true := by
      rw [h3]; decide
    have hv2 : IsValidTransition DealStatusPosted DealStatusHoldVerification = true := by decide
    have hupsert : DealRepo.upsertPost st
        { dealId := dealId, telegramMessageId := none, telegramChatId := none,
          postURL := some postURL, contentHash := some (sha256Hex postURL),
          postedAt := some now, isDeleted := false, isEdited := false } =
        { st with posts := st.posts ++
          [{ dealId := dealId, telegramMessageId := none, telegramChatId := none,
             postURL := some postURL, contentHash := some (sha256Hex postURL),
             postedAt := some now, isDeleted := false, isEdited := false }] } := by
      unfold DealRepo.upsertPost
      rw [show st.posts.find? (fun q => q.dealId ==
        ({ dealId := dealId, telegramMessageId := none, telegramChatId := none,
           postURL := some postURL, contentHash := some (sha256Hex postURL),
           postedAt := some now, isDeleted := false, isEdited := false } : DealPost).dealId) =
        none from hnopost]
    refine ⟨?_, ?_, ?_⟩
    · simp [DealService.MarkManualPost, h1, h2, hcond, hupsert, DealService.transition,
        hv1, hv2, AuditRepo.log, Publisher.publish, DealRepo.updateStatus]
    · intro d hd hid
      simp only [DealService.MarkManualPost, h1, h2, hcond, hupsert, DealService.transition,
        hv1, hv2, Bool.not_true, Bool.false_eq_true, if_false, AuditRepo.log,
        Publisher.publish, DealRepo.updateStatus] at hd
      have hd' : d ∈ st.deals.map (fun x =>
          if x.id == deal.id then { x with status := DealStatusPosted } else x) := by
        exact hd
      obtain ⟨b, hb, rfl⟩ := List.mem_map.mp hd'
      by_cases h : b.id == deal.id
      · simp [h]
      · rw [if_neg h] at hid
        exact absurd (beq_iff_eq.mpr hid) h
    · simp [DealService.MarkManualPost, h1, h2, hcond, hupsert, DealService.transition,
        hv1, hv2, AuditRepo.log, Publisher.publish, DealRepo.updateStatus]

/-- Witness for C6's amended theorem: instantiates all three conjuncts
(the atomic single transition, AcceptDeal's escrow-insert failure, and
MarkManualPost's second-transition failure) on concrete stores. -/
theorem transition_atomic_witness :
    (DealService.transition storeSubmittedW dealSubmittedW DealStatusAccepted none "user" true).1 =
      storeSubmittedW ∧
    (DealService.AcceptDeal storeSubmittedW cfgW 1 10 AcceptFault.escrowCreateFails).1.escrows =
      storeSubmittedW.escrows ∧
    (DealService.MarkManualPost storeCreativeApprovedW 1 10 "u" 0
        MarkPostFault.secondUpdateFails).1.posts =
      storeCreativeApprovedW.posts ++ [postMarkedW] := by
  refine ⟨?_, ?_, ?_⟩
  · exact (transition_atomic_but_multi_step_ops_commit).1 storeSubmittedW dealSubmittedW
      DealStatusAccepted none "user"
  · exact ((transition_atomic_but_multi_step_ops_commit).2.1 storeSubmittedW cfgW 1 10
      dealSubmittedW (by decide) (by decide) (by decide)).2.2
  · exact ((transition_atomic_but_multi_step_ops_commit).2.2 storeCreativeApprovedW 1 10 "u" 0
      dealCreativeApprovedW (by decide) (by decide) (by decide) (by decide)).2.2

/-! ## Claim C7 — proof verification is exact -/

theorem leBytes_length (w n : Nat) : (leBytes w n).length = w := by
  induction w generalizing n with
  | zero => rfl
  | succ k ih => simp [leBytes, ih]

theorem leBytes_inj (w : Nat) {n m : Nat} (hn : n < 256 ^ w) (hm : m < 256 ^ w)
    (h : leBytes w n = leBytes w m) : n = m := by
  induction w generalizing n m with
  | zero =>
    have hn0 : n = 0 := Nat.lt_one_iff.mp (by simpa using hn)
    have hm0 : m = 0 := Nat.lt_one_iff.mp (by simpa using hm)
    rw [hn0, hm0]
  | succ k ih =>
    simp only [leBytes, List.cons.injEq] at h
    have hdivn : n / 256 < 256 ^ k := by
      rw [Nat.div_lt_iff_lt_mul (by norm_num)]
      calc n < 256 ^ (k + 1) := hn
        _ = 256 ^ k * 256 := by ring
    have hdivm : m / 256 < 256 ^ k := by
      rw [Nat.div_lt_iff_lt_mul (by norm_num)]
      calc m < 256 ^ (k + 1) := hm
        _ = 256 ^ k * 256 := by ring
    have hmod : n % 256 = m % 256 := h.1
    have hdiv : n / 256 = m / 256 := ih hdivn hdivm h.2
    omega

theorem uint32OfInt_lt (x : Int) : uint32OfInt x < 2 ^ 32 := by
  unfold uint32OfInt
  omega

theorem uint64OfInt_lt (x : Int) : uint64OfInt x < 2 ^ 64 := by
  unfold uint64OfInt
  omega

theorem uint32OfInt_inj {x y : Int} (hx1 : -(2 ^ 31) ≤ x) (hx2 : x < 2 ^ 31)
    (hy1 : -(2 ^ 31) ≤ y) (hy2 : y < 2 ^ 31)
    (h : uint32OfInt x = uint32OfInt y) : x = y := by
  unfold uint32OfInt at h
  omega

theorem uint64OfInt_inj {x y : Int} (hx1 : 0 ≤ x) (hx2 : x < 2 ^ 63)
    (hy1 : 0 ≤ y) (hy2 : y < 2 ^ 63)
    (h : uint64OfInt x = uint64OfInt y) : x = y := by
  unfold uint64OfInt at h
  omega

theorem uint32OfInt_of_nat (n : Nat) (hn : n < 2 ^ 32) : uint32OfInt (n : Int) = n := by
  unfold uint32OfInt
  omega

theorem strBytes_inj {s t : String} (h : strBytes s = strBytes t) : s = t := by
  unfold strBytes at h
  apply String.ext
  exact List.map_injective_iff.mpr (fun a b hab => Char.ext (UInt32.ext hab)) h

theorem strBytes_length (s : String) : (strBytes s).length = s.data.length := by
  simp [strBytes]

theorem proofMessageBytes_inj
    {wc wc' : Int} {addr addr' : Bytes} {dv dv' pay pay' : String} {ts ts' : Int}
    (ha : addr.length = 32) (ha' : addr'.length = 32)
    (hdl : (strBytes dv).length < 2 ^ 32) (hdl' : (strBytes dv').length < 2 ^ 32)
    (hmsg : proofMessageBytes wc addr ((strBytes dv).length : Int) dv ts pay =
            proofMessageBytes wc' addr' ((strBytes dv').length : Int) dv' ts' pay') :
    uint32OfInt wc = uint32OfInt wc' ∧ addr = addr' ∧ dv = dv' ∧
      uint64OfInt ts = uint64OfInt ts' ∧ pay = pay' := by
  unfold proofMessageBytes at hmsg
  simp only [List.append_assoc] at hmsg
  have h256 : (256 : Nat) ^ 4 = 2 ^ 32 := by norm_num
  have h256b : (256 : Nat) ^ 8 = 2 ^ 64 := by norm_num
  have h0 := List.append_cancel_left hmsg
  obtain ⟨hW, h1⟩ := List.append_inj h0 (by rw [leBytes_length, leBytes_length])
  have hwc : uint32OfInt wc = uint32OfInt wc' :=
    leBytes_inj 4 (by rw [h256]; exact uint32OfInt_lt wc)
      (by rw [h256]; exact uint32OfInt_lt wc') hW
  obtain ⟨hA, h2⟩ := List.append_inj h1 (by rw [ha, ha'])
  obtain ⟨hL, h3⟩ := List.append_inj h2 (by rw [leBytes_length, leBytes_length])
  have hlen : (strBytes dv).length = (strBytes dv').length := by
    have := leBytes_inj 4 (by rw [h256]; exact uint32OfInt_lt _)
      (by rw [h256]; exact uint32OfInt_lt _) hL
    rw [uint32OfInt_of_nat _ hdl, uint32OfInt_of_nat _ hdl'] at this
    exact this
  obtain ⟨hD, h4⟩ := List.append_inj h3 hlen
  obtain ⟨hT, h5⟩ := List.append_inj h4 (by rw [leBytes_length, leBytes_length])
  have hts : uint64OfInt ts = uint64OfInt ts' :=
    leBytes_inj 8 (by rw [h256b]; exact uint64OfInt_lt ts)
      (by rw [h256b]; exact uint64OfInt_lt ts') hT
  exact ⟨hwc, hA, strBytes_inj hD, hts, strBytes_inj h5⟩

/-- A successful VerifyProof forces the signature to be the honest one
over the spec 4.6 construction, and all the guard checks to have
passed. -/
theorem verifyProof_ok_implies (pk addr : Bytes) (wc : Int) (proof : TonProof)
    (allowed : List String) (now : Int)
    (h : VerifyProof pk addr wc proof allowed now = .ok ()) :
    proof.signature = ed25519Sign pk (specFinalHash wc addr proof.domain.lengthBytes
      proof.domain.value proof.timestamp proof.payload) ∧
    pk.length = 32 ∧ isDomainAllowed proof.domain.value allowed = true ∧
    now - proof.timestamp ≤ MaxProofAge ∧ proof.timestamp ≤ now + 60 := by
  unfold VerifyProof at h
  split_ifs at h with h1 h2 h3 h4
  dsimp only at h
  split_ifs at h with h5
  · refine ⟨?_, not_not.mp h4, by simpa using h3, not_lt.mp h1, not_lt.mp h2⟩
    obtain ⟨hp, hm⟩ := Bool.and_eq_true_iff.mp h5
    have hp' := beq_iff_eq.mp hp
    have hm' := beq_iff_eq.mp hm
    have hsig : proof.signature =
        { pk := proof.signature.pk, signedMsg := proof.signature.signedMsg } := rfl
    rw [hsig, hp', hm']
    rfl

/-- Claim C7: VerifyProof accepts exactly the signatures produced over
the byte layout of spec 4.6 — the honestly signed proof verifies;
mutating any of workchain, address, domain, timestamp, payload, or the
signature itself causes rejection; a domain outside a non-empty
allow-list is rejected, while the empty allow-list permits any domain. -/
theorem verifyProof_exact (pk addr : Bytes) (wc : Int) (dv : String) (ts : Int) (pay : String)
    (now : Int) (allowed : List String)
    (hpk : pk.length = 32) (ha : addr.length = 32)
    (hwc1 : -(2 ^ 31) ≤ wc) (hwc2 : wc < 2 ^ 31)
    (hts1 : 0 ≤ ts) (hts2 : ts < 2 ^ 63)
    (hdl : (strBytes dv).length < 2 ^ 32)
    (hfresh1 : now - ts ≤ MaxProofAge) (hfresh2 : ts ≤ now + 60)
    (hdom : isDomainAllowed dv allowed = true) :
    (VerifyProof pk addr wc
      { timestamp := ts, domain := { lengthBytes := ((strBytes dv).length : Int), value := dv },
        payload := pay,
        signature := ed25519Sign pk
          (specFinalHash wc addr ((strBytes dv).length : Int) dv ts pay) }
      allowed now = .ok ()) ∧
    (∀ (wc' : Int) (addr' : Bytes) (dv' pay' : String) (ts' : Int)
        (allowed' : List String) (now' : Int),
      addr'.length = 32 → -(2 ^ 31) ≤ wc' → wc' < 2 ^ 31 → 0 ≤ ts' → ts' < 2 ^ 63 →
      (strBytes dv').length < 2 ^ 32 →
      ¬(wc' = wc ∧ addr' = addr ∧ dv' = dv ∧ ts' = ts ∧ pay' = pay) →
      VerifyProof pk addr' wc'
        { timestamp := ts', domain := { lengthBytes := ((strBytes dv').length : Int), value := dv' },
          payload := pay',
          signature := ed25519Sign pk
            (specFinalHash wc addr ((strBytes dv).length : Int) dv ts pay) }
        allowed' now' ≠ .ok ()) ∧
    (∀ sig' : Ed25519Sig,
      sig' ≠ ed25519Sign pk (specFinalHash wc addr ((strBytes dv).length : Int) dv ts pay) →
      VerifyProof pk addr wc
        { timestamp := ts, domain := { lengthBytes := ((strBytes dv).length : Int), value := dv },
          payload := pay, signature := sig' } allowed now ≠ .ok ()) ∧
    (∀ allowed' : List String, allowed' ≠ [] → dv ∉ allowed' →
      ∀ sig' : Ed25519Sig, VerifyProof pk addr wc
        { timestamp := ts, domain := { lengthBytes := ((strBytes dv).length : Int), value := dv },
          payload := pay, signature := sig' } allowed' now ≠ .ok ()) ∧
    isDomainAllowed dv [] = true := by
  refine ⟨?_, ?_, ?_, ?_, rfl⟩
  · unfold VerifyProof
    rw [if_neg (not_lt.mpr hfresh1), if_neg (not_lt.mpr hfresh2)]
    simp [hdom, hpk, ed25519Verify, ed25519Sign, specFinalHash]
  · intro wc' addr' dv' pay' ts' allowed' now' ha' hwc1' hwc2' hts1' hts2' hdl' hne hok
    obtain ⟨hsig, -, -, -, -⟩ := verifyProof_ok_implies _ _ _ _ _ _ hok
    have hH : specFinalHash wc addr ((strBytes dv).length : Int) dv ts pay =
        specFinalHash wc' addr' ((strBytes dv').length : Int) dv' ts' pay' := by
      simpa [ed25519Sign, Ed25519Sig.mk.injEq] using hsig
    unfold specFinalHash at hH
    have hmsg : proofMessageBytes wc addr ((strBytes dv).length : Int) dv ts pay =
        proofMessageBytes wc' addr' ((strBytes dv').length : Int) dv' ts' pay' := by
      simpa using hH
    obtain ⟨hwc, haddr, hdv, hts, hpay⟩ := proofMessageBytes_inj ha ha' hdl hdl' hmsg
    exact hne ⟨(uint32OfInt_inj hwc1 hwc2 hwc1' hwc2' hwc).symm, haddr.symm, hdv.symm,
      (uint64OfInt_inj hts1 hts2 hts1' hts2' hts).symm, hpay.symm⟩
  · intro sig' hne hok
    obtain ⟨hsig, -⟩ := verifyProof_ok_implies _ _ _ _ _ _ hok
    exact hne hsig
  · intro allowed' hne hnm sig' hok
    obtain ⟨-, -, hdm, -⟩ := verifyProof_ok_implies _ _ _ _ _ _ hok
    unfold isDomainAllowed at hdm
    rcases Bool.or_eq_true_iff.mp hdm with h | h
    · exact hne (List.isEmpty_iff.mp h)
    · exact hnm (by simpa using h)

/-- Witness for C7: a concrete honestly signed proof verifies; bumping
the timestamp, replacing the signature, or using an unlisted domain is
rejected; the empty allow-list is permissive — all by instantiating
`verifyProof_exact`. -/
theorem verifyProof_exact_witness :
    (VerifyProof c7pk c7addr 0
      { timestamp := 100, domain := { lengthBytes := ((strBytes "app").length : Int), value := "app" },
        payload := "nonce",
        signature := ed25519Sign c7pk
          (specFinalHash 0 c7addr ((strBytes "app").length : Int) "app" 100 "nonce") }
      ["app"] 200 = .ok ()) ∧
    (VerifyProof c7pk c7addr 0
      { timestamp := 101, domain := { lengthBytes := ((strBytes "app").length : Int), value := "app" },
        payload := "nonce",
        signature := ed25519Sign c7pk
          (specFinalHash 0 c7addr ((strBytes "app").length : Int) "app" 100 "nonce") }
      ["app"] 200 ≠ .ok ()) ∧
    (VerifyProof c7pk c7addr 0
      { timestamp := 100, domain := { lengthBytes := ((strBytes "app").length : Int), value := "app" },
        payload := "nonce", signature := ed25519Sign c7pk (Msg.bytes []) }
      ["app"] 200 ≠ .ok ()) ∧
    (VerifyProof c7pk c7addr 0
      { timestamp := 100, domain := { lengthBytes := ((strBytes "app").length : Int), value := "app" },
        payload := "nonce",
        signature := ed25519Sign c7pk
          (specFinalHash 0 c7addr ((strBytes "app").length : Int) "app" 100 "nonce") }
      ["good.com"] 200 ≠ .ok ()) := by
  refine ⟨?_, ?_, ?_, ?_⟩
  · exact (verifyProof_exact c7pk c7addr 0 "app" 100 "nonce" 200 ["app"]
      (by decide) (by decide) (by decide) (by decide) (by decide) (by decide) (by decide)
      (by decide) (by decide) (by decide)).1
  · exact (verifyProof_exact c7pk c7addr 0 "app" 100 "nonce" 200 ["app"]
      (by decide) (by decide) (by decide) (by decide) (by decide) (by decide) (by decide)
      (by decide) (by decide) (by decide)).2.1 0 c7addr "app" "nonce" 101 ["app"] 200
      (by decide) (by decide) (by decide) (by decide) (by decide) (by decide) (by decide)
  · exact (verifyProof_exact c7pk c7addr 0 "app" 100 "nonce" 200 ["app"]
      (by decide) (by decide) (by decide) (by decide) (by decide) (by decide) (by decide)
      (by decide) (by decide) (by decide)).2.2.1 (ed25519Sign c7pk (Msg.bytes []))
      (by decide)
  · exact (verifyProof_exact c7pk c7addr 0 "app" 100 "nonce" 200 ["app"]
      (by decide) (by decide) (by decide) (by decide) (by decide) (by decide) (by decide)
      (by decide) (by decide) (by decide)).2.2.2.1 ["good.com"] (by decide) (by decide)
      (ed25519Sign c7pk
        (specFinalHash 0 c7addr ((strBytes "app").length : Int) "app" 100 "nonce"))

/-! ## Claim C10 — ConnectWallet consumes the payload first -/

theorem walletRepo_connectWallet_payloads (s : WalletStore) (w : UserWallet) :
    (WalletRepo.connectWallet s w).payloads = s.payloads := by
  unfold WalletRepo.connectWallet
  split <;> rfl

theorem connectWallet_payloads (st : WalletStore) (cfg : Config) (userId : Nat)
    (req : ConnectWalletRequest) (now : Int) :
    (WalletService.ConnectWallet st cfg userId req now).1.payloads =
    (WalletRepo.consumeProofPayload st req.proof.payload now).1.payloads := by
  unfold WalletService.ConnectWallet
  rcases hc : WalletRepo.consumeProofPayload st req.proof.payload now with ⟨st1, res⟩
  cases res with
  | error e => rfl
  | ok row =>
    cases hp : ParseRawAddress req.address with
    | error e => rfl
    | ok wcHash =>
      rcases wcHash with ⟨wc, hash⟩
      by_cases hn : (req.network ≠ "" && req.network ≠ cfg.tonNetwork) = true
      · simp only [hn, if_true]
      · have hn' : (req.network ≠ "" && req.network ≠ cfg.tonNetwork) = false := by
          simpa using hn
        simp only [hn', Bool.false_eq_true, if_false]
        cases hv : VerifyProof req.publicKey hash wc req.proof cfg.tonProofAllowedDomains now with
        | error e => rfl
        | ok u =>
          simp [walletRepo_connectWallet_payloads, WalletRepo.deactivateAllWallets]


/-- Claim C10: ConnectWallet consumes the proof payload as its FIRST
step; under a unique-payload table (the schema's UNIQUE constraint), if
the payload row is consumable but the call fails at any later stage
(address parsing, network check, or proof verification), the row is
nevertheless left used, and any retry carrying the same payload — even
a corrected one — fails with the replay/expired error and changes
nothing. -/
theorem connectWallet_consumes_payload_first
    (st : WalletStore) (cfg : Config) (userId : Nat) (req : ConnectWalletRequest) (now : Int)
    (huniq : ∀ p1 ∈ st.payloads, ∀ p2 ∈ st.payloads, p1.payload = p2.payload → p1 = p2)
    (hok : (WalletRepo.consumeProofPayload st req.proof.payload now).2.isOk = true)
    (_hfail : (WalletService.ConnectWallet st cfg userId req now).2.isOk = false) :
    (∀ p ∈ (WalletService.ConnectWallet st cfg userId req now).1.payloads,
      p.payload = req.proof.payload → p.used = true) ∧
    (∀ (cfg' : Config) (userId' : Nat) (req' : ConnectWalletRequest) (now' : Int),
      req'.proof.payload = req.proof.payload →
      WalletService.ConnectWallet (WalletService.ConnectWallet st cfg userId req now).1
          cfg' userId' req' now' =
        ((WalletService.ConnectWallet st cfg userId req now).1,
         .error "invalid or expired proof payload (nonce)")) := by
  have hmarked : ∀ p ∈ (WalletService.ConnectWallet st cfg userId req now).1.payloads,
      p.payload = req.proof.payload → p.used = true := by
    intro p hp hpp
    rw [connectWallet_payloads] at hp
    unfold WalletRepo.consumeProofPayload at hp hok
    cases hfind : st.payloads.find? (fun q =>
        q.payload == req.proof.payload && !q.used && q.expiresAt > now) with
    | none => rw [hfind] at hok; simp [Except.isOk, Except.toBool] at hok
    | some r =>
      rw [hfind] at hp
      obtain ⟨q, hq, rfl⟩ := List.mem_map.mp hp
      by_cases hc : (q.payload == req.proof.payload && !q.used && decide (q.expiresAt > now)) = true
      · simp only [hc, if_true]
      · rw [if_neg (by simpa using hc)] at hpp ⊢
        have hrmem : r ∈ st.payloads := List.mem_of_find?_eq_some hfind
        have h0 := List.find?_some hfind
        have hrpp : r.payload = req.proof.payload := by
          have h1 : (r.payload == req.proof.payload && !r.used &&
              decide (r.expiresAt > now)) = true := h0
          exact beq_iff_eq.mp (Bool.and_eq_true_iff.mp (Bool.and_eq_true_iff.mp h1).1).1
        have hqr : q = r := huniq q hq r hrmem (by rw [hpp, hrpp])
        rw [hqr] at hc
        exact absurd h0 hc
  refine ⟨hmarked, ?_⟩
  intro cfg' userId' req' now' hpp'
  obtain ⟨S, hS⟩ : ∃ S, (WalletService.ConnectWallet st cfg userId req now).1 = S := ⟨_, rfl⟩
  have hfind' : S.payloads.find?
      (fun q => q.payload == req'.proof.payload && !q.used && q.expiresAt > now') = none := by
    rw [← hS, List.find?_eq_none]
    intro q hq
    by_cases hqp : q.payload = req'.proof.payload
    · have hused : q.used = true := hmarked q hq (by rw [hqp, hpp'])
      simp [hused]
    · have : (q.payload == req'.proof.payload) = false := beq_eq_false_iff_ne.mpr hqp
      simp [this]
  have hcons : WalletRepo.consumeProofPayload S req'.proof.payload now' =
      (S, .error "no rows in result set") := by
    unfold WalletRepo.consumeProofPayload
    rw [hfind']
  rw [hS]
  unfold WalletService.ConnectWallet
  rw [hcons]


/-- Witness for C10. -/
theorem connectWallet_consumes_payload_first_witness :
    (WalletService.ConnectWallet stWalletW cfgW 7 reqBadW 0).2.isOk = false ∧
    ({ payload := "abc", userId := none, expiresAt := 1000, used := true } : TonProofPayloadRow) ∈
      (WalletService.ConnectWallet stWalletW cfgW 7 reqBadW 0).1.payloads ∧
    WalletService.ConnectWallet (WalletService.ConnectWallet stWalletW cfgW 7 reqBadW 0).1
        cfgW 7 reqRetryW 5 =
      ((WalletService.ConnectWallet stWalletW cfgW 7 reqBadW 0).1,
       .error "invalid or expired proof payload (nonce)") := by
  refine ⟨by decide, by decide, ?_⟩
  exact (connectWallet_consumes_payload_first stWalletW cfgW 7 reqBadW 0
    (by decide) (by decide) (by decide)).2 cfgW 7 reqRetryW 5 (by decide)

end AdsMarket
